import Mathlib

/-!
# libxstream events: capture, poll and wait

A shallow embedding of `src/acc/mic/libxstream/src/libxstream_event.cpp`.

* A stream is referred to by a handle (a natural number standing for the
  address held in `slot_type::m_stream`); the streams themselves live in a
  `World`, outside of every event.
* The preprocessor switches of the translation unit are the fields of `Build`.
* The device backend (`_Offload_signaled`, `#pragma offload_wait`) is external:
  the answer of the `t`-th poll is `fired t device signal`, the number of polls
  made so far and the list of blocking waits are recorded in the `World`.
* The block between `LIBXSTREAM_OFFLOAD_BEGIN` and `LIBXSTREAM_OFFLOAD_END`
  is run at the call, with `LIBXSTREAM_OFFLOAD_STREAM` the stream handed to
  `LIBXSTREAM_OFFLOAD_BEGIN`.
-/

namespace Libxstream

/-! ## Data model -/

/-- Completion token of a stream (`libxstream_signal`); zero means that nothing is outstanding. -/
abbrev libxstream_signal := Nat

/-- The part of `libxstream_stream` the event code reads and writes: `device()` and `pending()`. -/
structure libxstream_stream where
  device : Int
  pending : libxstream_signal
deriving DecidableEq, Repr

/-- A slot `libxstream_event::slot_type`: the handle of the stream and the signal captured from it. -/
structure slot_type where
  m_stream : Nat
  m_pending : libxstream_signal
deriving DecidableEq, Repr

/-- Preprocessor configuration of the translation unit. The two bounds size the array
`m_slots[LIBXSTREAM_MAX_DEVICES * LIBXSTREAM_MAX_STREAMS]`; a C++ array bound is positive,
which the last two fields record. -/
structure Build where
  LIBXSTREAM_DEBUG : Bool
  LIBXSTREAM_WAIT_PAST : Bool
  LIBXSTREAM_OFFLOAD : Bool
  LIBXSTREAM_WAIT_OCCURRED : Bool
  LIBXSTREAM_MAX_DEVICES : Nat
  LIBXSTREAM_MAX_STREAMS : Nat
  devices_pos : 0 < LIBXSTREAM_MAX_DEVICES
  streams_pos : 0 < LIBXSTREAM_MAX_STREAMS

/-- Number of slots of an event: `LIBXSTREAM_MAX_DEVICES * LIBXSTREAM_MAX_STREAMS`. -/
def capacity (b : Build) : Nat := b.LIBXSTREAM_MAX_DEVICES * b.LIBXSTREAM_MAX_STREAMS

/-- Everything outside the event: the streams by handle, the number of backend polls
(`_Offload_signaled` calls) made so far, and the blocking waits (`offload_wait`) executed so far
as pairs of device and signal. -/
structure World where
  streams : Nat → libxstream_stream
  polls : Nat
  waits : List (Int × libxstream_signal)

/-- Answers of the device backend: `fired t device signal` is what the poll number `t` of
`_Offload_signaled(device, signal)` returns (true for a non-zero return value). -/
abbrev Backend := Nat → Int → libxstream_signal → Bool

/-- Modelled from the spec: `slot_type::match` is declared in libxstream.hpp, which is not
part of the sources at hand. `mt context stream` says whether a slot on `stream` belongs to the
context `context` (the stream pointer given to `query` or `wait`, zero for none). The functions
below take it as a parameter. -/
abbrev Match := Nat → Nat → Bool

/-- Modelled from the spec: one reading of `slot_type::match` (libxstream.hpp is not part of the
sources at hand), used for concrete runs: without a context every slot matches, with one exactly
the slots on that stream. -/
def match_stream : Match := fun context stream => context == 0 || context == stream

/-- The event `libxstream_event`: the slot array and the number of active leading slots.
Indices from `capacity` on lie outside of the array. -/
structure libxstream_event where
  m_slots : Nat → slot_type
  m_expected : Nat

/-- Ways in which a call does not return normally: a failed assertion, and a spin loop that has
not finished within its fuel. -/
inductive Fault where
  | assertion
  | out_of_fuel
deriving DecidableEq, Repr

/-- Array store `slots[i] = slot`. -/
def set_slot (slots : Nat → slot_type) (i : Nat) (slot : slot_type) : Nat → slot_type :=
  fun j => if j = i then slot else slots j

/-- The setter `libxstream_stream::pending(signal)` on the stream with handle `s`. -/
def World.set_pending (w : World) (s : Nat) (signal : libxstream_signal) : World :=
  { w with streams := fun t => if t = s then { w.streams s with pending := signal } else w.streams t }

/-- Modelled from the spec: the default constructor `slot_type()` is declared in libxstream.hpp,
which is not part of the sources at hand; it zero-fills the slot. -/
def slot_type.empty : slot_type := ⟨0, 0⟩

/-- Constructor `slot_type::slot_type(libxstream_stream& stream)`: keeps the address of the
stream and copies its pending signal. -/
def slot_type.of_stream (w : World) (stream : Nat) : slot_type :=
  ⟨stream, (w.streams stream).pending⟩

/-- Constructor `libxstream_event::libxstream_event()`: `m_expected(0)`; the slots are whatever
the array holds. -/
def libxstream_event.create (slots : Nat → slot_type) : libxstream_event := ⟨slots, 0⟩

/-! ## Operations -/

/-- The static `libxstream_event::enqueue(stream, slots, expected, reset)`. The assertion is
compiled under `LIBXSTREAM_DEBUG` only, as is the fill of the array on reset. The store
`slots[expected]` and the increment are made without any check: outside `LIBXSTREAM_DEBUG` the
call returns also when `expected` is `capacity` or more, the slot then being kept at its index
past the end of the array. -/
def enqueue_static (b : Build) (w : World) (stream : Nat) (slots : Nat → slot_type)
    (expected : Nat) (reset : Bool) : Except Fault ((Nat → slot_type) × Nat) :=
  if b.LIBXSTREAM_DEBUG = true ∧
      ¬ (capacity b > (if reset = true ∧ 0 < expected then expected - 1 else expected)) then
    Except.error Fault.assertion
  else
    let slots1 : Nat → slot_type :=
      if reset = true ∧ b.LIBXSTREAM_DEBUG = true then
        fun j => if j < capacity b then slot_type.empty else slots j
      else slots
    let expected1 : Nat := if reset = true then 0 else expected
    Except.ok (set_slot slots1 expected1 (slot_type.of_stream w stream), expected1 + 1)

/-- The member `libxstream_event::enqueue(stream, reset)`. -/
def libxstream_event.enqueue (b : Build) (w : World) (ev : libxstream_event) (stream : Nat)
    (reset : Bool) : Except Fault libxstream_event :=
  match enqueue_static b w stream ev.m_slots ev.m_expected reset with
  | Except.ok r => Except.ok ⟨r.1, r.2⟩
  | Except.error f => Except.error f

/-- The static `libxstream_event::update(slot)`. Under `LIBXSTREAM_OFFLOAD` the backend is polled
once (and the poll counted); without it the guarded block always runs. -/
def update (b : Build) (fired : Backend) (slot : slot_type) (w : World) : slot_type × World :=
  let pending_slot := slot.m_pending
  if pending_slot ≠ 0 then
    let pending_stream := (w.streams slot.m_stream).pending
    if pending_stream ≠ 0 then
      let signal := if b.LIBXSTREAM_WAIT_PAST = true then pending_slot else pending_stream
      if b.LIBXSTREAM_OFFLOAD = true then
        let w1 : World := { w with polls := w.polls + 1 }
        if fired w.polls (w.streams slot.m_stream).device signal = true then
          ({ slot with m_pending := 0 },
            if signal = pending_stream then w1.set_pending slot.m_stream 0 else w1)
        else (slot, w1)
      else
        ({ slot with m_pending := 0 },
          if signal = pending_stream then w.set_pending slot.m_stream 0 else w)
    else ({ slot with m_pending := 0 }, w)
  else (slot, w)

/-- The accessor `libxstream_event::expected()` with its assertion
`LIBXSTREAM_ASSERT((LIBXSTREAM_MAX_DEVICES * LIBXSTREAM_MAX_STREAMS) >= m_expected)`. -/
def libxstream_event.expected (b : Build) (ev : libxstream_event) : Except Fault Nat :=
  if capacity b ≥ ev.m_expected then Except.ok ev.m_expected else Except.error Fault.assertion

/-- Loop state of `query`: the slots, the world and the local `result`. -/
structure QueryState where
  slots : Nat → slot_type
  world : World
  result : Bool

/-- Body of the loop of `query` at index `i`. -/
def query_body (b : Build) (fired : Backend) (mt : Match) (context : Nat) (i : Nat)
    (st : QueryState) : QueryState :=
  let slot := st.slots i
  if mt context slot.m_stream = true ∧ slot.m_pending ≠ 0 then
    let r := update b fired slot st.world
    ⟨set_slot st.slots i r.1, r.2, st.result && decide (r.1.m_pending = 0)⟩
  else st

/-- The first `k` rounds of `for (size_t i = 0; i < expected; ++i)` in `query`. -/
def query_loop (b : Build) (fired : Backend) (mt : Match) (context : Nat)
    (slots : Nat → slot_type) (w : World) : Nat → QueryState
  | 0 => ⟨slots, w, true⟩
  | k + 1 => query_body b fired mt context k (query_loop b fired mt context slots w k)

/-- The member `libxstream_event::query(occurred, stream)`: the value stored to `occurred`, the
event (whose slots are written through the pointer) and the world afterwards. -/
def libxstream_event.query (b : Build) (fired : Backend) (mt : Match) (ev : libxstream_event)
    (w : World) (context : Nat) : Bool × libxstream_event × World :=
  let st := query_loop b fired mt context ev.m_slots w ev.m_expected
  (st.result, ⟨st.slots, ev.m_expected⟩, st.world)

/-- The spin loop `do update(slot); while (0 != slot.pending())` of `wait`, run for at most
`fuel` rounds; `none` when the fuel does not suffice. -/
def spin (b : Build) (fired : Backend) : Nat → slot_type → World → Option (slot_type × World)
  | 0, _, _ => none
  | fuel + 1, slot, w =>
    let r := update b fired slot w
    if r.1.m_pending ≠ 0 then spin b fired fuel r.1 r.2 else some r

/-- Loop state of `wait`: the slots, the world and the local `completed`. -/
structure WaitState where
  slots : Nat → slot_type
  world : World
  completed : Nat

/-- The condition under which `wait` handles the slot at index `i`. -/
def wait_cond (mt : Match) (context : Nat) (i : Nat) (st : WaitState) : Prop :=
  mt context (st.slots i).m_stream = true ∧
    (st.world.streams (st.slots i).m_stream).pending ≠ 0 ∧ (st.slots i).m_pending ≠ 0

instance (mt : Match) (context : Nat) (i : Nat) (st : WaitState) :
    Decidable (wait_cond mt context i st) := by
  unfold wait_cond; infer_instance

/-- Body of the loop of `wait` at index `i`: either the spin loop (`LIBXSTREAM_WAIT_OCCURRED`)
or the blocking wait on the selected signal, executed on a device only
(`0 <= slot.stream().device()`, under `LIBXSTREAM_OFFLOAD`). -/
def wait_body (b : Build) (fired : Backend) (mt : Match) (context : Nat) (fuel : Nat) (i : Nat)
    (st : WaitState) : Except Fault WaitState :=
  let slot := st.slots i
  let pending_stream := (st.world.streams slot.m_stream).pending
  let pending_slot := slot.m_pending
  if wait_cond mt context i st then
    if b.LIBXSTREAM_WAIT_OCCURRED = true then
      match spin b fired fuel slot st.world with
      | none => Except.error Fault.out_of_fuel
      | some r => Except.ok ⟨set_slot st.slots i r.1, r.2, st.completed + 1⟩
    else
      let signal := if b.LIBXSTREAM_WAIT_PAST = true then pending_slot else pending_stream
      let device := (st.world.streams slot.m_stream).device
      let w1 : World :=
        if b.LIBXSTREAM_OFFLOAD = true ∧ 0 ≤ device then
          { st.world with waits := st.world.waits ++ [(device, signal)] }
        else st.world
      let w2 : World := if signal = pending_stream then w1.set_pending slot.m_stream 0 else w1
      Except.ok ⟨st.slots, w2, st.completed + 1⟩
  else Except.ok st

/-- The first `k` rounds of `for (size_t i = 0; i < expected; ++i)` in `wait`. -/
def wait_loop (b : Build) (fired : Backend) (mt : Match) (context : Nat) (fuel : Nat)
    (slots : Nat → slot_type) (w : World) : Nat → Except Fault WaitState
  | 0 => Except.ok ⟨slots, w, 0⟩
  | k + 1 =>
    match wait_loop b fired mt context fuel slots w k with
    | Except.ok st => wait_body b fired mt context fuel k st
    | Except.error f => Except.error f

/-- The member `libxstream_event::wait(stream)`, with `LIBXSTREAM_ASSERT(completed <= expected)`
before `expected -= completed`. The macro `LIBXSTREAM_ASSERT` is defined in a header that is not
part of the sources at hand; it is taken as checked in every build, a failure being the fault
`Fault.assertion`. `fuel` bounds the rounds of each spin loop. -/
def libxstream_event.wait (b : Build) (fired : Backend) (mt : Match) (fuel : Nat)
    (ev : libxstream_event) (w : World) (context : Nat) :
    Except Fault (libxstream_event × World) :=
  match wait_loop b fired mt context fuel ev.m_slots w ev.m_expected with
  | Except.ok st =>
    if st.completed ≤ ev.m_expected then
      Except.ok (⟨st.slots, ev.m_expected - st.completed⟩, st.world)
    else Except.error Fault.assertion
  | Except.error f => Except.error f

/-- A run of `enqueue(stream, false)` calls, one per entry of `calls`; every call comes with the
world it is made in (the streams may have moved on between two calls). The run stops at the
first fault. -/
def enqueue_seq (b : Build) : List (World × Nat) → libxstream_event → Except Fault libxstream_event
  | [], ev => Except.ok ev
  | c :: calls, ev =>
    match libxstream_event.enqueue b c.1 ev c.2 false with
    | Except.ok ev1 => enqueue_seq b calls ev1
    | Except.error f => Except.error f

/-- A call on an event, with the world it is made in and the backend that answers during it:
`enqueue(stream, reset)`, `query(occurred, context)`, `wait(context)`, and `update` on the slot
at index `i`. Between two calls the world may change in any way. -/
inductive Call where
  | enqueue (w : World) (stream : Nat) (reset : Bool)
  | query (fired : Backend) (w : World) (context : Nat)
  | wait (fired : Backend) (fuel : Nat) (w : World) (context : Nat)
  | update (fired : Backend) (w : World) (i : Nat)

/-- Whether a call is an `enqueue`. -/
def Call.is_enqueue : Call → Bool
  | Call.enqueue _ _ _ => true
  | _ => false

/-- The event after one call, or the fault that ends it. -/
def call_run (b : Build) (mt : Match) (c : Call) (ev : libxstream_event) :
    Except Fault libxstream_event :=
  match c with
  | Call.enqueue w stream reset => libxstream_event.enqueue b w ev stream reset
  | Call.query fired w context => Except.ok (libxstream_event.query b fired mt ev w context).2.1
  | Call.wait fired fuel w context =>
    match libxstream_event.wait b fired mt fuel ev w context with
    | Except.ok r => Except.ok r.1
    | Except.error f => Except.error f
  | Call.update fired w i =>
    Except.ok ⟨set_slot ev.m_slots i (update b fired (ev.m_slots i) w).1, ev.m_expected⟩

/-- The event after a sequence of calls; the run stops at the first fault. -/
def calls_run (b : Build) (mt : Match) : List Call → libxstream_event →
    Except Fault libxstream_event
  | [], ev => Except.ok ev
  | c :: calls, ev =>
    match call_run b mt c ev with
    | Except.ok ev1 => calls_run b mt calls ev1
    | Except.error f => Except.error f

/-- Whether round `i` of the loop of `wait` handles its slot: the rounds before it have run
without fault and left a state in which slot `i` matches the context and both the signal of its
stream and its own captured signal are non-zero. -/
def wait_handles (b : Build) (fired : Backend) (mt : Match) (context : Nat) (fuel : Nat)
    (slots : Nat → slot_type) (w : World) (i : Nat) : Bool :=
  match wait_loop b fired mt context fuel slots w i with
  | Except.ok st => decide (wait_cond mt context i st)
  | Except.error _ => false

/-- The number of indices `i < expected` whose round handles its slot, the rounds taken in
index order. -/
def wait_completed (b : Build) (fired : Backend) (mt : Match) (context : Nat) (fuel : Nat)
    (slots : Nat → slot_type) (w : World) (expected : Nat) : Nat :=
  (List.range expected).countP (wait_handles b fired mt context fuel slots w)

/-! ## Concrete builds and states for the worked runs -/

/-- The default build (wait for the current signal, blocking wait, host only) with four slots. -/
def build_default : Build := ⟨false, false, false, false, 2, 2, by decide, by decide⟩

/-- As `build_default`, compiled with `LIBXSTREAM_DEBUG`. -/
def build_debug : Build := ⟨true, false, false, false, 2, 2, by decide, by decide⟩

/-- A world of idle streams on device 0, before any poll or wait. -/
def world_idle : World := ⟨fun _ => ⟨0, 0⟩, 0, []⟩

/-- A world in which every stream with handle `h` has the outstanding signal `h + 10`. -/
def world_busy : World := ⟨fun h => ⟨0, h + 10⟩, 0, []⟩

/-- An array of zero-filled slots. -/
def slots_empty : Nat → slot_type := fun _ => slot_type.empty

/-- An event whose four slots are all active. -/
def event_full : libxstream_event := ⟨fun i => ⟨i + 1, 7⟩, 4⟩

/-- A backend that never reports a signal as fired. -/
def backend_never : Backend := fun _ _ _ => false

/-- A backend that reports every signal as fired. -/
def backend_always : Backend := fun _ _ _ => true

/-- An event with two active slots on stream 1, the first of them retired. -/
def event_retired : libxstream_event := ⟨fun i => ⟨1, if i = 0 then 0 else 7⟩, 2⟩

/-- A run without enqueue: a poll, a wait and an update of slot 0, on busy streams. -/
def calls_quiet : List Call :=
  [Call.query backend_always world_busy 0, Call.wait backend_always 1 world_busy 0,
    Call.update backend_always world_busy 0]

/-- A stream whose signal `query` cannot retire: the build polls the backend, the stream is
pending, and the backend `f` (answering by device and signal alone) reports its signal as not
fired. -/
def stuck (b : Build) (f : Int → libxstream_signal → Bool) (w : World) (s : Nat) : Prop :=
  b.LIBXSTREAM_OFFLOAD = true ∧ (w.streams s).pending ≠ 0 ∧
    f (w.streams s).device (w.streams s).pending = false

/-- A build that waits for the captured signal by a blocking wait on the backend. -/
def build_past_offload : Build := ⟨false, true, true, false, 2, 2, by decide, by decide⟩

/-- The default policies with a backend: wait for the current signal, blocking. -/
def build_offload : Build := ⟨false, false, true, false, 2, 2, by decide, by decide⟩

/-- A world whose streams are on the host (device -1) with the outstanding signal 9. -/
def world_host : World := ⟨fun _ => ⟨-1, 9⟩, 0, []⟩

/-- A world whose streams are on device 0 with the outstanding signal 9. -/
def world_device : World := ⟨fun _ => ⟨0, 9⟩, 0, []⟩

/-- An event with two active slots on stream 1: the first captured signal 5, the second was
taken while the stream was idle. -/
def event_corner : libxstream_event := ⟨fun i => ⟨1, if i = 0 then 5 else 0⟩, 2⟩

/-- A backend that answers by the signal alone: signals below 9 have fired. -/
def backend_below : Int → libxstream_signal → Bool := fun _ signal => decide (signal < 9)

/-- The signal `update` tests for a slot: the captured signal under `LIBXSTREAM_WAIT_PAST`, the
signal of the stream otherwise. -/
def tested (b : Build) (slot : slot_type) (w : World) : libxstream_signal :=
  if b.LIBXSTREAM_WAIT_PAST = true then slot.m_pending else (w.streams slot.m_stream).pending

/-- What `update` learns about a signal at poll `t`: the answer of `_Offload_signaled` under
`LIBXSTREAM_OFFLOAD`; without it the backend is absent and the guarded block always runs, which
is the answer fired. -/
def signaled (b : Build) (fired : Backend) (t : Nat) (device : Int)
    (signal : libxstream_signal) : Bool :=
  if b.LIBXSTREAM_OFFLOAD = true then fired t device signal else true

/-- The event and the world after `k` calls of `query` in a row, nothing else in between. -/
def query_repeat (b : Build) (fired : Backend) (mt : Match) (context : Nat) :
    Nat → libxstream_event → World → libxstream_event × World
  | 0, ev, w => (ev, w)
  | k + 1, ev, w =>
    let p := query_repeat b fired mt context k ev w
    (libxstream_event.query b fired mt p.1 p.2 context).2

/-- An event with one active slot on stream 1 that captured signal 9. -/
def event_single : libxstream_event := ⟨fun _ => ⟨1, 9⟩, 1⟩

/-- A backend that reports not fired at the first poll and fired from the second on. -/
def backend_second : Backend := fun t _ _ => decide (1 ≤ t)

/-- An event with two active slots on stream 1 that captured the signals 5 and 9. -/
def event_twice : libxstream_event := ⟨fun i => ⟨1, if i = 0 then 5 else 9⟩, 2⟩

/-- A backend that reports signal 5 as fired and nothing else. -/
def backend_five : Backend := fun _ _ signal => decide (signal = 5)

/-- A host-only build with the spin loop in `wait`. -/
def build_spin : Build := ⟨false, false, false, true, 2, 2, by decide, by decide⟩

/-- An event with two active slots, on stream 1 and on stream 2, taken from `world_busy`. -/
def event_two_streams : libxstream_event := ⟨fun i => ⟨i + 1, i + 11⟩, 2⟩

/-- Five appends, on the streams 1 to 5 of `world_busy`. -/
def appends_five : List (World × Nat) :=
  [(world_busy, 1), (world_busy, 2), (world_busy, 3), (world_busy, 4), (world_busy, 5)]

theorem capacity_pos (b : Build) : 0 < capacity b :=
  Nat.mul_pos b.devices_pos b.streams_pos

/-- An append that passes the assertion, where there is one, stores at index `expected`. -/
theorem enqueue_append_ok (b : Build) (w : World) (ev : libxstream_event) (stream : Nat)
    (h : b.LIBXSTREAM_DEBUG = true → ev.m_expected < capacity b) :
    libxstream_event.enqueue b w ev stream false =
      Except.ok ⟨set_slot ev.m_slots ev.m_expected (slot_type.of_stream w stream),
        ev.m_expected + 1⟩ := by
  cases hd : b.LIBXSTREAM_DEBUG with
  | false => simp [libxstream_event.enqueue, enqueue_static, hd]
  | true =>
    have h1 : ¬ (capacity b ≤ ev.m_expected) := Nat.not_le.mpr (h hd)
    simp [libxstream_event.enqueue, enqueue_static, hd, h1]

theorem enqueue_append (b : Build) (w : World) (ev : libxstream_event) (stream : Nat)
    (h : ev.m_expected < capacity b) :
    libxstream_event.enqueue b w ev stream false =
      Except.ok ⟨set_slot ev.m_slots ev.m_expected (slot_type.of_stream w stream),
        ev.m_expected + 1⟩ :=
  enqueue_append_ok b w ev stream (fun _ => h)

/-- Without `LIBXSTREAM_DEBUG` an append returns whatever `expected` is. -/
theorem enqueue_unchecked (b : Build) (w : World) (ev : libxstream_event) (stream : Nat)
    (hd : b.LIBXSTREAM_DEBUG = false) :
    libxstream_event.enqueue b w ev stream false =
      Except.ok ⟨set_slot ev.m_slots ev.m_expected (slot_type.of_stream w stream),
        ev.m_expected + 1⟩ :=
  enqueue_append_ok b w ev stream (fun h => by rw [hd] at h; cases h)

/-- Under `LIBXSTREAM_DEBUG` an append on an event without room fails the assertion. -/
theorem enqueue_full (b : Build) (w : World) (ev : libxstream_event) (stream : Nat)
    (hd : b.LIBXSTREAM_DEBUG = true) (h : capacity b ≤ ev.m_expected) :
    libxstream_event.enqueue b w ev stream false = Except.error Fault.assertion := by
  simp [libxstream_event.enqueue, enqueue_static, h, hd]

/-- An append that returns has stored at index `expected`, and under `LIBXSTREAM_DEBUG` there
was room. -/
theorem enqueue_ok_append (b : Build) (w : World) (ev ev1 : libxstream_event) (stream : Nat)
    (h : libxstream_event.enqueue b w ev stream false = Except.ok ev1) :
    ev1 = ⟨set_slot ev.m_slots ev.m_expected (slot_type.of_stream w stream),
        ev.m_expected + 1⟩ ∧
      (b.LIBXSTREAM_DEBUG = true → ev.m_expected < capacity b) := by
  by_cases hok : b.LIBXSTREAM_DEBUG = true → ev.m_expected < capacity b
  · rw [enqueue_append_ok b w ev stream hok, Except.ok.injEq] at h
    exact ⟨h.symm, hok⟩
  · have hd : b.LIBXSTREAM_DEBUG = true := by
      by_contra hn
      exact hok (fun h1 => absurd h1 hn)
    rw [enqueue_full b w ev stream hd (by
      by_contra hlt
      exact hok (fun _ => by omega))] at h
    cases h

theorem enqueue_reset (b : Build) (w : World) (ev : libxstream_event) (stream : Nat)
    (h : ev.m_expected ≤ capacity b) :
    libxstream_event.enqueue b w ev stream true =
      Except.ok ⟨set_slot
          (if b.LIBXSTREAM_DEBUG = true then
            fun j => if j < capacity b then slot_type.empty else ev.m_slots j
          else ev.m_slots) 0 (slot_type.of_stream w stream), 1⟩ := by
  have hc := capacity_pos b
  have h1 : ¬ (capacity b ≤ if 0 < ev.m_expected then ev.m_expected - 1 else ev.m_expected) := by
    by_cases h0 : 0 < ev.m_expected
    · rw [if_pos h0]; omega
    · rw [if_neg h0]; omega
  simp [libxstream_event.enqueue, enqueue_static, hc, h1]

theorem enqueue_seq_expected (b : Build) (calls : List (World × Nat)) :
    ∀ ev : libxstream_event, ev.m_expected + calls.length ≤ capacity b →
      ∃ ev1, enqueue_seq b calls ev = Except.ok ev1 ∧
        ev1.m_expected = ev.m_expected + calls.length := by
  induction calls with
  | nil => intro ev _; exact ⟨ev, rfl, by simp⟩
  | cons c calls ih =>
    intro ev h
    simp only [List.length_cons] at h
    have h1 : ev.m_expected < capacity b := by omega
    obtain ⟨ev1, h2, h3⟩ := ih ⟨set_slot ev.m_slots ev.m_expected (slot_type.of_stream c.1 c.2),
      ev.m_expected + 1⟩ (by simp only; omega)
    refine ⟨ev1, ?_, ?_⟩
    · simp only [enqueue_seq, enqueue_append b c.1 ev c.2 h1]
      exact h2
    · simp only [h3, List.length_cons]
      omega

/-! ## update -/

theorem update_zero (b : Build) (fired : Backend) (slot : slot_type) (w : World)
    (h : slot.m_pending = 0) : update b fired slot w = (slot, w) := by
  simp [update, h]

theorem update_idle (b : Build) (fired : Backend) (slot : slot_type) (w : World)
    (hs : slot.m_pending ≠ 0) (h : (w.streams slot.m_stream).pending = 0) :
    update b fired slot w = (⟨slot.m_stream, 0⟩, w) := by
  simp [update, h, hs]

theorem update_stream (b : Build) (fired : Backend) (slot : slot_type) (w : World) :
    (update b fired slot w).1.m_stream = slot.m_stream := by
  unfold update
  simp only []
  split_ifs <;> rfl

theorem update_pending (b : Build) (fired : Backend) (slot : slot_type) (w : World) :
    (update b fired slot w).1.m_pending = 0 ∨ (update b fired slot w).1 = slot := by
  unfold update
  simp only []
  split_ifs <;> simp

theorem update_waits (b : Build) (fired : Backend) (slot : slot_type) (w : World) :
    (update b fired slot w).2.waits = w.waits := by
  unfold update
  simp only []
  split_ifs <;> simp [World.set_pending]

theorem update_polls (b : Build) (fired : Backend) (slot : slot_type) (w : World) :
    w.polls ≤ (update b fired slot w).2.polls := by
  unfold update
  simp only []
  split_ifs <;> simp [World.set_pending]

theorem update_device (b : Build) (fired : Backend) (slot : slot_type) (w : World) (t : Nat) :
    ((update b fired slot w).2.streams t).device = (w.streams t).device := by
  unfold update
  simp only []
  split_ifs <;> simp [World.set_pending] <;> split_ifs <;> simp_all

theorem update_streams_other (b : Build) (fired : Backend) (slot : slot_type) (w : World)
    (t : Nat) (h : t ≠ slot.m_stream) :
    (update b fired slot w).2.streams t = w.streams t := by
  unfold update
  simp only []
  split_ifs <;> simp [World.set_pending, h]

theorem update_streams_pending (b : Build) (fired : Backend) (slot : slot_type) (w : World)
    (t : Nat) :
    ((update b fired slot w).2.streams t).pending = 0 ∨
      (update b fired slot w).2.streams t = w.streams t := by
  unfold update
  simp only []
  split_ifs <;> simp [World.set_pending] <;> split_ifs <;> simp_all

/-- After `update`, a slot that is still pending sits on a stream that is still pending. -/
theorem update_left_pending (b : Build) (fired : Backend) (slot : slot_type) (w : World)
    (h : (update b fired slot w).1.m_pending ≠ 0) :
    ((update b fired slot w).2.streams slot.m_stream).pending ≠ 0 ∧
      (update b fired slot w).1 = slot ∧
      (update b fired slot w).2.streams = w.streams := by
  unfold update at h ⊢
  simp only [] at h ⊢
  split_ifs at h ⊢ <;> simp_all

/-! ## query -/

theorem query_body_slots_other (b : Build) (fired : Backend) (mt : Match) (context i : Nat)
    (st : QueryState) (j : Nat) (h : j ≠ i) :
    (query_body b fired mt context i st).slots j = st.slots j := by
  unfold query_body
  simp only []
  split_ifs <;> simp [set_slot, h]

theorem query_body_slots_self (b : Build) (fired : Backend) (mt : Match) (context i : Nat)
    (st : QueryState) :
    (query_body b fired mt context i st).slots i =
      if mt context (st.slots i).m_stream = true ∧ (st.slots i).m_pending ≠ 0 then
        (update b fired (st.slots i) st.world).1
      else st.slots i := by
  unfold query_body
  simp only []
  split_ifs <;> simp [set_slot]

theorem query_body_result (b : Build) (fired : Backend) (mt : Match) (context i : Nat)
    (st : QueryState) :
    (query_body b fired mt context i st).result =
      (st.result && decide (mt context (st.slots i).m_stream = true →
        ((query_body b fired mt context i st).slots i).m_pending = 0)) := by
  rw [query_body_slots_self]
  unfold query_body
  simp only []
  split_ifs with h
  · simp [h.1]
  · by_cases hm : mt context (st.slots i).m_stream = true
    · have : (st.slots i).m_pending = 0 := by
        by_contra hp
        exact h ⟨hm, hp⟩
      simp [this]
    · simp [hm]

theorem query_body_stream (b : Build) (fired : Backend) (mt : Match) (context i : Nat)
    (st : QueryState) (j : Nat) :
    ((query_body b fired mt context i st).slots j).m_stream = (st.slots j).m_stream := by
  by_cases h : j = i
  · subst h
    rw [query_body_slots_self]
    split_ifs
    · exact update_stream b fired _ _
    · rfl
  · rw [query_body_slots_other _ _ _ _ _ _ _ h]

theorem query_body_pending (b : Build) (fired : Backend) (mt : Match) (context i : Nat)
    (st : QueryState) (j : Nat) :
    ((query_body b fired mt context i st).slots j).m_pending = 0 ∨
      (query_body b fired mt context i st).slots j = st.slots j := by
  by_cases h : j = i
  · subst h
    rw [query_body_slots_self]
    split_ifs
    · exact update_pending b fired _ _
    · exact Or.inr rfl
  · exact Or.inr (query_body_slots_other _ _ _ _ _ _ _ h)

theorem query_loop_slots_ge (b : Build) (fired : Backend) (mt : Match) (context : Nat)
    (slots : Nat → slot_type) (w : World) (k j : Nat) (h : k ≤ j) :
    (query_loop b fired mt context slots w k).slots j = slots j := by
  induction k with
  | zero => rfl
  | succ k ih =>
    simp only [query_loop]
    rw [query_body_slots_other _ _ _ _ _ _ _ (by omega)]
    exact ih (by omega)

theorem query_loop_slots_lt (b : Build) (fired : Backend) (mt : Match) (context : Nat)
    (slots : Nat → slot_type) (w : World) (k j n : Nat) (h : j < k) (hn : k ≤ n) :
    (query_loop b fired mt context slots w n).slots j =
      (query_loop b fired mt context slots w k).slots j := by
  induction n with
  | zero => omega
  | succ n ih =>
    by_cases hk : k = n + 1
    · rw [hk]
    · simp only [query_loop]
      rw [query_body_slots_other _ _ _ _ _ _ _ (by omega)]
      exact ih (by omega)

theorem query_loop_stream (b : Build) (fired : Backend) (mt : Match) (context : Nat)
    (slots : Nat → slot_type) (w : World) (k j : Nat) :
    ((query_loop b fired mt context slots w k).slots j).m_stream = (slots j).m_stream := by
  induction k with
  | zero => rfl
  | succ k ih =>
    simp only [query_loop]
    rw [query_body_stream, ih]

theorem query_loop_pending (b : Build) (fired : Backend) (mt : Match) (context : Nat)
    (slots : Nat → slot_type) (w : World) (k j : Nat) :
    ((query_loop b fired mt context slots w k).slots j).m_pending = 0 ∨
      (query_loop b fired mt context slots w k).slots j = slots j := by
  induction k with
  | zero => exact Or.inr rfl
  | succ k ih =>
    simp only [query_loop]
    rcases query_body_pending b fired mt context k
        (query_loop b fired mt context slots w k) j with h | h
    · exact Or.inl h
    · rw [h]; exact ih

/-- The local `result` after `k` rounds says that no matching slot below `k` is pending. -/
theorem query_loop_result (b : Build) (fired : Backend) (mt : Match) (context : Nat)
    (slots : Nat → slot_type) (w : World) (k : Nat) :
    (query_loop b fired mt context slots w k).result = true ↔
      ∀ j, j < k → mt context (slots j).m_stream = true →
        ((query_loop b fired mt context slots w k).slots j).m_pending = 0 := by
  induction k with
  | zero => simp [query_loop]
  | succ k ih =>
    have hres := query_body_result b fired mt context k (query_loop b fired mt context slots w k)
    have hst := query_loop_stream b fired mt context slots w k k
    simp only [query_loop]
    rw [hres, Bool.and_eq_true, ih, decide_eq_true_eq, hst]
    constructor
    · rintro ⟨h1, h2⟩ j hj hm
      by_cases hjk : j = k
      · subst hjk; exact h2 hm
      · rw [query_body_slots_other _ _ _ _ _ _ _ hjk]
        exact h1 j (by omega) hm
    · intro h
      refine ⟨fun j hj hm => ?_, fun hm => h k (by omega) hm⟩
      have := h j (by omega) hm
      rwa [query_body_slots_other _ _ _ _ _ _ _ (by omega)] at this

theorem query_body_world (b : Build) (fired : Backend) (mt : Match) (context i : Nat)
    (st : QueryState) :
    (query_body b fired mt context i st).world.waits = st.world.waits ∧
    (∀ t, ((query_body b fired mt context i st).world.streams t).device =
      (st.world.streams t).device) ∧
    (∀ t, ((query_body b fired mt context i st).world.streams t).pending = 0 ∨
      (query_body b fired mt context i st).world.streams t = st.world.streams t) := by
  unfold query_body
  simp only []
  split_ifs
  · exact ⟨update_waits b fired _ _, update_device b fired _ _,
      update_streams_pending b fired _ _⟩
  · exact ⟨rfl, fun _ => rfl, fun _ => Or.inr rfl⟩

/-- During `query` no blocking wait happens, devices stay, and the signal of a stream is either
cleared or left alone. -/
theorem query_loop_world (b : Build) (fired : Backend) (mt : Match) (context : Nat)
    (slots : Nat → slot_type) (w : World) (k : Nat) :
    (query_loop b fired mt context slots w k).world.waits = w.waits ∧
    (∀ t, ((query_loop b fired mt context slots w k).world.streams t).device =
      (w.streams t).device) ∧
    (∀ t, ((query_loop b fired mt context slots w k).world.streams t).pending = 0 ∨
      (query_loop b fired mt context slots w k).world.streams t = w.streams t) := by
  induction k with
  | zero => exact ⟨rfl, fun _ => rfl, fun _ => Or.inr rfl⟩
  | succ k ih =>
    obtain ⟨a1, a2, a3⟩ := query_body_world b fired mt context k
      (query_loop b fired mt context slots w k)
    obtain ⟨b1, b2, b3⟩ := ih
    simp only [query_loop]
    refine ⟨by rw [a1, b1], fun t => by rw [a2, b2], fun t => ?_⟩
    rcases a3 t with h | h
    · exact Or.inl h
    · rw [h]; exact b3 t

/-- The slot at an index below the bound after the loop of `query`: updated once, in the world
its round found, when it matched and was pending; untouched otherwise. -/
theorem query_loop_slot_final (b : Build) (fired : Backend) (mt : Match) (context : Nat)
    (slots : Nat → slot_type) (w : World) (n j : Nat) (h : j < n) :
    (query_loop b fired mt context slots w n).slots j =
      if mt context (slots j).m_stream = true ∧ (slots j).m_pending ≠ 0 then
        (update b fired (slots j) (query_loop b fired mt context slots w j).world).1
      else slots j := by
  rw [query_loop_slots_lt b fired mt context slots w (j + 1) j n (by omega) (by omega)]
  simp only [query_loop]
  rw [query_body_slots_self, query_loop_slots_ge b fired mt context slots w j j (le_refl _)]

/-! ## wait -/

theorem spin_some (b : Build) (fired : Backend) :
    ∀ (fuel : Nat) (slot : slot_type) (w : World) (r : slot_type × World),
      spin b fired fuel slot w = some r →
        r.1.m_stream = slot.m_stream ∧ r.1.m_pending = 0 ∧ r.2.waits = w.waits ∧
        w.polls ≤ r.2.polls ∧
        (∀ t, (r.2.streams t).device = (w.streams t).device) ∧
        (∀ t, (r.2.streams t).pending = 0 ∨ r.2.streams t = w.streams t) ∧
        (∀ t, t ≠ slot.m_stream → r.2.streams t = w.streams t) := by
  intro fuel
  induction fuel with
  | zero => intro slot w r h; simp [spin] at h
  | succ fuel ih =>
    intro slot w r h
    simp only [spin] at h
    split_ifs at h with hp
    · obtain ⟨-, h2, h3⟩ := update_left_pending b fired slot w hp
      obtain ⟨i1, i2, i3, i4, i5, i6, i7⟩ := ih _ _ r h
      rw [h2] at i1 i7
      rw [h3] at i5 i6 i7
      have hw := update_waits b fired slot w
      have hq := update_polls b fired slot w
      exact ⟨i1, i2, by rw [i3, hw], by omega, i5, i6, i7⟩
    · simp only [Option.some.injEq] at h
      subst h
      exact ⟨update_stream b fired slot w, by simpa using hp, update_waits b fired slot w,
        update_polls b fired slot w, update_device b fired slot w,
        update_streams_pending b fired slot w, fun t ht => update_streams_other b fired slot w t ht⟩

theorem wait_body_skip (b : Build) (fired : Backend) (mt : Match) (context fuel i : Nat)
    (st : WaitState) (h : ¬ wait_cond mt context i st) :
    wait_body b fired mt context fuel i st = Except.ok st := by
  simp [wait_body, h]

theorem set_pending_device (w : World) (s : Nat) (signal : libxstream_signal) (t : Nat) :
    ((w.set_pending s signal).streams t).device = (w.streams t).device := by
  simp only [World.set_pending]
  split_ifs with h
  · rw [h]
  · rfl

theorem set_pending_zero (w : World) (s t : Nat) :
    ((w.set_pending s 0).streams t).pending = 0 ∨ (w.set_pending s 0).streams t = w.streams t := by
  simp only [World.set_pending]
  split_ifs with h
  · exact Or.inl rfl
  · exact Or.inr rfl

theorem set_pending_self (w : World) (s : Nat) (signal : libxstream_signal) :
    ((w.set_pending s signal).streams s).pending = signal := by
  simp [World.set_pending]

theorem set_pending_other (w : World) (s : Nat) (signal : libxstream_signal) (t : Nat)
    (h : t ≠ s) : (w.set_pending s signal).streams t = w.streams t := by
  simp [World.set_pending, h]

/-- The world after the blocking branch of a round of `wait`. -/
theorem wait_body_block (b : Build) (fired : Backend) (mt : Match) (context fuel i : Nat)
    (st : WaitState) (hc : wait_cond mt context i st)
    (ho : b.LIBXSTREAM_WAIT_OCCURRED = false) :
    wait_body b fired mt context fuel i st = Except.ok ⟨st.slots,
      (if (if b.LIBXSTREAM_WAIT_PAST = true then (st.slots i).m_pending
            else (st.world.streams (st.slots i).m_stream).pending) =
          (st.world.streams (st.slots i).m_stream).pending then
        World.set_pending
          (if b.LIBXSTREAM_OFFLOAD = true ∧ 0 ≤ (st.world.streams (st.slots i).m_stream).device
            then ⟨st.world.streams, st.world.polls, st.world.waits ++
              [((st.world.streams (st.slots i).m_stream).device,
                if b.LIBXSTREAM_WAIT_PAST = true then (st.slots i).m_pending
                else (st.world.streams (st.slots i).m_stream).pending)]⟩
            else st.world) (st.slots i).m_stream 0
      else
        (if b.LIBXSTREAM_OFFLOAD = true ∧ 0 ≤ (st.world.streams (st.slots i).m_stream).device
            then ⟨st.world.streams, st.world.polls, st.world.waits ++
              [((st.world.streams (st.slots i).m_stream).device,
                if b.LIBXSTREAM_WAIT_PAST = true then (st.slots i).m_pending
                else (st.world.streams (st.slots i).m_stream).pending)]⟩
            else st.world)),
      st.completed + 1⟩ := by
  simp [wait_body, hc, ho]

/-- What a round of the loop of `wait` that returns leaves behind. -/
theorem wait_body_ok (b : Build) (fired : Backend) (mt : Match) (context fuel i : Nat)
    (st st1 : WaitState) (h : wait_body b fired mt context fuel i st = Except.ok st1) :
    (∀ j, j ≠ i → st1.slots j = st.slots j) ∧
    (∀ j, (st1.slots j).m_stream = (st.slots j).m_stream) ∧
    (∀ j, (st1.slots j).m_pending = 0 ∨ st1.slots j = st.slots j) ∧
    st1.completed = st.completed + (if wait_cond mt context i st then 1 else 0) ∧
    (∀ t, (st1.world.streams t).device = (st.world.streams t).device) ∧
    (∀ t, (st1.world.streams t).pending = 0 ∨ st1.world.streams t = st.world.streams t) ∧
    (∃ l, st1.world.waits = st.world.waits ++ l) := by
  by_cases hc : wait_cond mt context i st
  · cases ho : b.LIBXSTREAM_WAIT_OCCURRED with
    | true =>
      unfold wait_body at h
      simp only [if_pos hc, ho, if_true] at h
      cases hs : spin b fired fuel (st.slots i) st.world with
      | none => rw [hs] at h; cases h
      | some r =>
        rw [hs] at h
        simp only [Except.ok.injEq] at h
        subst h
        obtain ⟨i1, i2, i3, -, i5, i6, -⟩ := spin_some b fired fuel _ _ r hs
        refine ⟨?_, ?_, ?_, ?_, i5, i6, ⟨[], by simp [i3]⟩⟩
        · intro j hj; simp [set_slot, hj]
        · intro j
          by_cases hj : j = i
          · subst hj; simp [set_slot, i1]
          · simp [set_slot, hj]
        · intro j
          by_cases hj : j = i
          · subst hj; simp [set_slot, i2]
          · simp [set_slot, hj]
        · simp [hc]
    | false =>
      rw [wait_body_block b fired mt context fuel i st hc ho] at h
      simp only [Except.ok.injEq] at h
      subst h
      refine ⟨fun j _ => rfl, fun j => rfl, fun j => Or.inr rfl, by simp [hc], ?_, ?_, ?_⟩
      · intro t
        simp only []
        split_ifs <;> first | rfl | exact set_pending_device _ _ _ _
      · intro t
        simp only []
        split_ifs <;> first | exact Or.inr rfl | exact set_pending_zero _ _ _
      · simp only []
        split_ifs <;> first | exact ⟨_, rfl⟩ | exact ⟨[], (List.append_nil _).symm⟩
  · rw [wait_body_skip b fired mt context fuel i st hc] at h
    simp only [Except.ok.injEq] at h
    subst h
    exact ⟨fun j _ => rfl, fun j => rfl, fun j => Or.inr rfl, by simp [hc], fun t => rfl,
      fun t => Or.inr rfl, ⟨[], by simp⟩⟩

/-- After a round of `wait` that returns, a matching slot is retired, or its stream is idle, or
(wait for the captured signal, blocking) the slot is as before and the wait on its captured
signal was executed if the build has a backend and the stream is on a device. -/
theorem wait_body_handled (b : Build) (fired : Backend) (mt : Match) (context fuel i : Nat)
    (st st1 : WaitState) (h : wait_body b fired mt context fuel i st = Except.ok st1)
    (hm : mt context (st.slots i).m_stream = true) :
    ∃ l, st1.world.waits = st.world.waits ++ l ∧
      ((st1.slots i).m_pending = 0 ∨
        (st1.world.streams (st.slots i).m_stream).pending = 0 ∨
        (b.LIBXSTREAM_WAIT_PAST = true ∧ b.LIBXSTREAM_WAIT_OCCURRED = false ∧
          st1.slots i = st.slots i ∧
          (b.LIBXSTREAM_OFFLOAD = true → 0 ≤ (st.world.streams (st.slots i).m_stream).device →
            ((st.world.streams (st.slots i).m_stream).device, (st.slots i).m_pending) ∈ l))) := by
  by_cases hc : wait_cond mt context i st
  · cases ho : b.LIBXSTREAM_WAIT_OCCURRED with
    | true =>
      unfold wait_body at h
      simp only [if_pos hc, ho, if_true] at h
      cases hs : spin b fired fuel (st.slots i) st.world with
      | none => rw [hs] at h; cases h
      | some r =>
        rw [hs] at h
        simp only [Except.ok.injEq] at h
        subst h
        obtain ⟨-, i2, i3, -⟩ := spin_some b fired fuel _ _ r hs
        exact ⟨[], by simp [i3], Or.inl (by simp [set_slot, i2])⟩
    | false =>
      rw [wait_body_block b fired mt context fuel i st hc ho] at h
      simp only [Except.ok.injEq] at h
      subst h
      cases hp : b.LIBXSTREAM_WAIT_PAST with
      | false =>
        simp only [Bool.false_eq_true, if_false, if_true]
        by_cases hd : b.LIBXSTREAM_OFFLOAD = true ∧
            0 ≤ (st.world.streams (st.slots i).m_stream).device
        · rw [if_pos hd]
          exact ⟨_, rfl, Or.inr (Or.inl (set_pending_self _ _ _))⟩
        · rw [if_neg hd]
          exact ⟨[], (List.append_nil _).symm, Or.inr (Or.inl (set_pending_self _ _ _))⟩
      | true =>
        simp only [if_true]
        by_cases heq : (st.slots i).m_pending = (st.world.streams (st.slots i).m_stream).pending
        · rw [if_pos heq]
          by_cases hd : b.LIBXSTREAM_OFFLOAD = true ∧
              0 ≤ (st.world.streams (st.slots i).m_stream).device
          · rw [if_pos hd]
            exact ⟨_, rfl, Or.inr (Or.inl (set_pending_self _ _ _))⟩
          · rw [if_neg hd]
            exact ⟨[], (List.append_nil _).symm, Or.inr (Or.inl (set_pending_self _ _ _))⟩
        · rw [if_neg heq]
          by_cases hd : b.LIBXSTREAM_OFFLOAD = true ∧
              0 ≤ (st.world.streams (st.slots i).m_stream).device
          · rw [if_pos hd]
            exact ⟨_, rfl, Or.inr (Or.inr ⟨trivial, trivial, trivial, fun _ _ => List.mem_singleton_self _⟩)⟩
          · rw [if_neg hd]
            exact ⟨[], (List.append_nil _).symm,
              Or.inr (Or.inr ⟨trivial, trivial, trivial, fun h1 h2 => absurd ⟨h1, h2⟩ hd⟩)⟩
  · rw [wait_body_skip b fired mt context fuel i st hc] at h
    simp only [Except.ok.injEq] at h
    subst h
    refine ⟨[], (List.append_nil _).symm, ?_⟩
    by_cases hz : (st.slots i).m_pending = 0
    · exact Or.inl hz
    · right; left
      by_contra hs
      exact hc ⟨hm, hs, hz⟩

theorem wait_loop_succ_ok (b : Build) (fired : Backend) (mt : Match) (context fuel : Nat)
    (slots : Nat → slot_type) (w : World) (k : Nat) (st1 : WaitState)
    (h : wait_loop b fired mt context fuel slots w (k + 1) = Except.ok st1) :
    ∃ st, wait_loop b fired mt context fuel slots w k = Except.ok st ∧
      wait_body b fired mt context fuel k st = Except.ok st1 := by
  simp only [wait_loop] at h
  cases hk : wait_loop b fired mt context fuel slots w k with
  | error f => rw [hk] at h; cases h
  | ok st => rw [hk] at h; exact ⟨st, rfl, h⟩

/-- Invariants of the loop of `wait`: a property that holds before the first round and is kept
by every round that returns holds after `k` rounds that return. -/
theorem wait_loop_induct (b : Build) (fired : Backend) (mt : Match) (context fuel : Nat)
    (slots : Nat → slot_type) (w : World) (P : Nat → WaitState → Prop)
    (h0 : P 0 ⟨slots, w, 0⟩)
    (hstep : ∀ k st st1, wait_loop b fired mt context fuel slots w k = Except.ok st → P k st →
      wait_body b fired mt context fuel k st = Except.ok st1 → P (k + 1) st1) :
    ∀ k st, wait_loop b fired mt context fuel slots w k = Except.ok st → P k st := by
  intro k
  induction k with
  | zero =>
    intro st h
    simp only [wait_loop, Except.ok.injEq] at h
    subst h
    exact h0
  | succ k ih =>
    intro st1 h
    obtain ⟨st, h1, h2⟩ := wait_loop_succ_ok b fired mt context fuel slots w k st1 h
    exact hstep k st st1 h1 (ih st h1) h2

theorem update_left_pending_polls (b : Build) (fired : Backend) (slot : slot_type) (w : World)
    (h : (update b fired slot w).1.m_pending ≠ 0) :
    (update b fired slot w).2.polls = w.polls + 1 := by
  unfold update at h ⊢
  simp only [] at h ⊢
  split_ifs at h ⊢ <;> simp_all

/-- A poll that the backend answers with fired, or a build without backend, retires the slot. -/
theorem update_fired (b : Build) (fired : Backend) (slot : slot_type) (w : World)
    (h : b.LIBXSTREAM_OFFLOAD = true →
      fired w.polls (w.streams slot.m_stream).device
        (if b.LIBXSTREAM_WAIT_PAST = true then slot.m_pending
          else (w.streams slot.m_stream).pending) = true) :
    (update b fired slot w).1.m_pending = 0 := by
  unfold update
  simp only []
  split_ifs <;> simp_all

theorem spin_terminates (b : Build) (fired : Backend) (T : Nat)
    (hT : ∀ t d s, T ≤ t → fired t d s = true) :
    ∀ (n : Nat) (slot : slot_type) (w : World), T ≤ w.polls + n →
      ∃ r, spin b fired (n + 1) slot w = some r := by
  intro n
  induction n with
  | zero =>
    intro slot w h
    have hz := update_fired b fired slot w (fun _ => hT _ _ _ (by omega))
    exact ⟨update b fired slot w, by simp [spin, hz]⟩
  | succ n ih =>
    intro slot w h
    by_cases hp : (update b fired slot w).1.m_pending = 0
    · exact ⟨update b fired slot w, by simp [spin, hp]⟩
    · have hq := update_left_pending_polls b fired slot w hp
      obtain ⟨r, hr⟩ := ih (update b fired slot w).1 (update b fired slot w).2 (by omega)
      refine ⟨r, ?_⟩
      rw [spin, if_pos hp]
      exact hr

/-- The loop of `wait` runs through: always with the blocking wait, and in the spin build with
fuel `T + 1` when the backend reports every signal as fired from poll `T` on. -/
theorem wait_loop_total (b : Build) (fired : Backend) (mt : Match) (context fuel : Nat)
    (slots : Nat → slot_type) (w : World)
    (h : b.LIBXSTREAM_WAIT_OCCURRED = true →
      ∃ T, fuel = T + 1 ∧ ∀ t d s, T ≤ t → fired t d s = true) :
    ∀ k, ∃ st, wait_loop b fired mt context fuel slots w k = Except.ok st := by
  intro k
  induction k with
  | zero => exact ⟨_, rfl⟩
  | succ k ih =>
    obtain ⟨st, hst⟩ := ih
    simp only [wait_loop, hst]
    by_cases hc : wait_cond mt context k st
    · cases ho : b.LIBXSTREAM_WAIT_OCCURRED with
      | true =>
        obtain ⟨T, hf, hT⟩ := h ho
        obtain ⟨r, hr⟩ := spin_terminates b fired T hT T (st.slots k) st.world (by omega)
        subst hf
        exact ⟨⟨set_slot st.slots k r.1, r.2, st.completed + 1⟩,
          by simp [wait_body, hc, ho, hr]⟩
      | false => exact ⟨_, wait_body_block b fired mt context fuel k st hc ho⟩
    · exact ⟨st, wait_body_skip b fired mt context fuel k st hc⟩

/-- The local `completed` after `k` rounds is the number of rounds that handled their slot. -/
theorem wait_loop_completed (b : Build) (fired : Backend) (mt : Match) (context fuel : Nat)
    (slots : Nat → slot_type) (w : World) :
    ∀ k st, wait_loop b fired mt context fuel slots w k = Except.ok st →
      st.completed = wait_completed b fired mt context fuel slots w k := by
  apply wait_loop_induct
  · simp [wait_completed]
  · intro k st st1 hk hP hb
    obtain ⟨-, -, -, h4, -⟩ := wait_body_ok b fired mt context fuel k st st1 hb
    rw [h4, hP]
    simp only [wait_completed, List.range_succ, List.countP_append, List.countP_cons,
      List.countP_nil, wait_handles, hk]
    by_cases hc : wait_cond mt context k st <;> simp [hc]

theorem wait_completed_le (b : Build) (fired : Backend) (mt : Match) (context fuel : Nat)
    (slots : Nat → slot_type) (w : World) (k : Nat) :
    wait_completed b fired mt context fuel slots w k ≤ k := by
  have := List.countP_le_length (wait_handles b fired mt context fuel slots w)
    (l := List.range k)
  simpa [wait_completed] using this

/-- A `wait` that returns has run its loop through and subtracted `completed`. -/
theorem wait_ok_inv (b : Build) (fired : Backend) (mt : Match) (fuel : Nat)
    (ev : libxstream_event) (w : World) (context : Nat) (r : libxstream_event × World)
    (h : libxstream_event.wait b fired mt fuel ev w context = Except.ok r) :
    ∃ st, wait_loop b fired mt context fuel ev.m_slots w ev.m_expected = Except.ok st ∧
      st.completed ≤ ev.m_expected ∧
      r = (⟨st.slots, ev.m_expected - st.completed⟩, st.world) := by
  unfold libxstream_event.wait at h
  cases hl : wait_loop b fired mt context fuel ev.m_slots w ev.m_expected with
  | error f => rw [hl] at h; cases h
  | ok st =>
    rw [hl] at h
    simp only [] at h
    split_ifs at h with hle
    simp only [Except.ok.injEq] at h
    exact ⟨st, rfl, hle, h.symm⟩

/-- A loop of `wait` that runs through makes `wait` return. -/
theorem wait_of_loop (b : Build) (fired : Backend) (mt : Match) (fuel : Nat)
    (ev : libxstream_event) (w : World) (context : Nat) (st : WaitState)
    (h : wait_loop b fired mt context fuel ev.m_slots w ev.m_expected = Except.ok st) :
    libxstream_event.wait b fired mt fuel ev w context =
      Except.ok (⟨st.slots, ev.m_expected - st.completed⟩, st.world) := by
  have hc := wait_loop_completed b fired mt context fuel ev.m_slots w _ st h
  have hle := wait_completed_le b fired mt context fuel ev.m_slots w ev.m_expected
  unfold libxstream_event.wait
  rw [h]
  simp only []
  rw [if_pos (by omega)]

/-- After `k` rounds of `wait` that return, every matching slot below `k` is retired, or its
stream is idle, or (wait for the captured signal, blocking) the wait on its captured signal was
executed if the build has a backend and the stream is on a device. -/
theorem wait_loop_settled (b : Build) (fired : Backend) (mt : Match) (context fuel : Nat)
    (slots : Nat → slot_type) (w : World) :
    ∀ k st, wait_loop b fired mt context fuel slots w k = Except.ok st →
      (∀ j, (st.slots j).m_stream = (slots j).m_stream) ∧
      (∀ t, (st.world.streams t).device = (w.streams t).device) ∧
      ∃ L, st.world.waits = w.waits ++ L ∧
        ∀ j, j < k → mt context (slots j).m_stream = true →
          (st.slots j).m_pending = 0 ∨
          (st.world.streams (slots j).m_stream).pending = 0 ∨
          (b.LIBXSTREAM_WAIT_PAST = true ∧ b.LIBXSTREAM_WAIT_OCCURRED = false ∧
            (b.LIBXSTREAM_OFFLOAD = true → 0 ≤ (w.streams (slots j).m_stream).device →
              ((w.streams (slots j).m_stream).device, (st.slots j).m_pending) ∈ L)) := by
  apply wait_loop_induct
  · exact ⟨fun _ => rfl, fun _ => rfl, [], (List.append_nil _).symm,
      fun j hj => absurd hj (Nat.not_lt_zero j)⟩
  · intro k st st1 _ hP hb
    obtain ⟨pA, pB, L, pL, pC⟩ := hP
    obtain ⟨c1, c2, c3, -, c5, c6, -⟩ := wait_body_ok b fired mt context fuel k st st1 hb
    refine ⟨fun j => by rw [c2, pA], fun t => by rw [c5, pB], ?_⟩
    by_cases hm : mt context (st.slots k).m_stream = true
    · obtain ⟨l, hl, hd⟩ := wait_body_handled b fired mt context fuel k st st1 hb hm
      refine ⟨L ++ l, by rw [hl, pL, List.append_assoc], ?_⟩
      intro j hj hmj
      by_cases hjk : j = k
      · subst hjk
        rcases hd with d | d | ⟨d1, d2, d3, d4⟩
        · exact Or.inl d
        · rw [pA] at d
          exact Or.inr (Or.inl d)
        · refine Or.inr (Or.inr ⟨d1, d2, fun h1 h2 => ?_⟩)
          rw [pA, pB] at d4
          rw [d3]
          exact List.mem_append_right _ (d4 h1 h2)
      · rcases pC j (by omega) hmj with d | d | ⟨d1, d2, d3⟩
        · rcases c3 j with e | e
          · exact Or.inl e
          · exact Or.inl (by rw [e]; exact d)
        · rcases c6 (slots j).m_stream with e | e
          · exact Or.inr (Or.inl e)
          · exact Or.inr (Or.inl (by rw [e]; exact d))
        · rcases c3 j with e | e
          · exact Or.inl e
          · refine Or.inr (Or.inr ⟨d1, d2, fun h1 h2 => ?_⟩)
            rw [e]
            exact List.mem_append_left _ (d3 h1 h2)
    · have hc : ¬ wait_cond mt context k st := fun h => hm h.1
      rw [wait_body_skip b fired mt context fuel k st hc] at hb
      simp only [Except.ok.injEq] at hb
      subst hb
      refine ⟨L, pL, ?_⟩
      intro j hj hmj
      by_cases hjk : j = k
      · subst hjk
        rw [← pA] at hmj
        exact absurd hmj hm
      · exact pC j (by omega) hmj

/-- A `query` right after a `wait` that returned, in a context that matches all active slots,
returns true when the backend reports as fired the signals the `wait` blocked on and, where the
build waits for the captured signal by a blocking wait on the backend, the streams are on
devices. -/
theorem wait_then_query (b : Build) (fired fired2 : Backend) (mt : Match) (fuel : Nat)
    (ev : libxstream_event) (w : World) (context : Nat) (r : libxstream_event × World)
    (hall : ∀ i, i < ev.m_expected → mt context (ev.m_slots i).m_stream = true)
    (hwait : libxstream_event.wait b fired mt fuel ev w context = Except.ok r)
    (hfired : ∀ p, p ∈ r.2.waits.drop w.waits.length → ∀ t, fired2 t p.1 p.2 = true)
    (hdev : b.LIBXSTREAM_WAIT_PAST = true → b.LIBXSTREAM_OFFLOAD = true →
      b.LIBXSTREAM_WAIT_OCCURRED = false →
      ∀ i, i < ev.m_expected → 0 ≤ (w.streams (ev.m_slots i).m_stream).device) :
    (libxstream_event.query b fired2 mt r.1 r.2 context).1 = true := by
  obtain ⟨st, h1, -, h3⟩ := wait_ok_inv b fired mt fuel ev w context r hwait
  subst h3
  obtain ⟨pA, pB, L, pL, pC⟩ := wait_loop_settled b fired mt context fuel ev.m_slots w _ st h1
  simp only [pL, List.drop_left] at hfired
  simp only [libxstream_event.query]
  rw [query_loop_result]
  intro j hj hmj
  have hje : j < ev.m_expected := by omega
  rw [query_loop_slot_final b fired2 mt context st.slots st.world _ j hj]
  split_ifs with hv
  · obtain ⟨q1, q2, q3⟩ := query_loop_world b fired2 mt context st.slots st.world j
    rcases pC j hje (hall j hje) with d | d | ⟨d1, d2, d3⟩
    · exact absurd d hv.2
    · have hz : ((query_loop b fired2 mt context st.slots st.world j).world.streams
          (st.slots j).m_stream).pending = 0 := by
        rcases q3 (st.slots j).m_stream with e | e
        · exact e
        · rw [e, pA]; exact d
      rw [update_idle b fired2 _ _ hv.2 hz]
    · apply update_fired
      intro hoff
      rw [if_pos d1, q2, pB, pA]
      exact hfired _ (d3 hoff (hdev d1 hoff d2 j hje)) _
  · by_contra hp
    exact hv ⟨hmj, hp⟩

/-! ## query twice -/

theorem update_current_left (b : Build) (f : Int → libxstream_signal → Bool) (slot : slot_type)
    (w : World) (hcur : b.LIBXSTREAM_WAIT_PAST = false)
    (h : (update b (fun _ => f) slot w).1.m_pending ≠ 0) :
    stuck b f w slot.m_stream := by
  unfold update at h
  unfold stuck
  simp only [hcur] at h
  split_ifs at h <;> simp_all

theorem update_stuck_self (b : Build) (f : Int → libxstream_signal → Bool) (slot : slot_type)
    (w : World) (hcur : b.LIBXSTREAM_WAIT_PAST = false) (hs : stuck b f w slot.m_stream) :
    (update b (fun _ => f) slot w).1 = slot ∧
      (update b (fun _ => f) slot w).2.streams = w.streams := by
  obtain ⟨h1, h2, h3⟩ := hs
  unfold update
  simp only [hcur]
  split_ifs <;> simp_all

theorem update_stuck_streams (b : Build) (f : Int → libxstream_signal → Bool) (slot : slot_type)
    (w : World) (s : Nat) (hcur : b.LIBXSTREAM_WAIT_PAST = false) (hs : stuck b f w s) :
    (update b (fun _ => f) slot w).2.streams s = w.streams s := by
  by_cases h : s = slot.m_stream
  · subst h
    rw [(update_stuck_self b f slot w hcur hs).2]
  · exact update_streams_other b _ slot w s h

theorem query_body_stuck (b : Build) (f : Int → libxstream_signal → Bool) (mt : Match)
    (context i : Nat) (st : QueryState) (s : Nat) (hcur : b.LIBXSTREAM_WAIT_PAST = false)
    (hs : stuck b f st.world s) :
    (query_body b (fun _ => f) mt context i st).world.streams s = st.world.streams s := by
  unfold query_body
  simp only []
  split_ifs
  · exact update_stuck_streams b f _ _ s hcur hs
  · rfl

/-- A stream that is stuck after `j` rounds of `query` is untouched by the later rounds. -/
theorem query_loop_stuck (b : Build) (f : Int → libxstream_signal → Bool) (mt : Match)
    (context : Nat) (slots : Nat → slot_type) (w : World) (s j : Nat)
    (hcur : b.LIBXSTREAM_WAIT_PAST = false)
    (hs : stuck b f (query_loop b (fun _ => f) mt context slots w j).world s) :
    ∀ n, j ≤ n → (query_loop b (fun _ => f) mt context slots w n).world.streams s =
      (query_loop b (fun _ => f) mt context slots w j).world.streams s := by
  intro n
  induction n with
  | zero =>
    intro hj
    have : j = 0 := by omega
    subst this
    rfl
  | succ n ih =>
    intro hj
    by_cases hjn : j = n + 1
    · subst hjn; rfl
    · have h1 := ih (by omega)
      have hs1 : stuck b f (query_loop b (fun _ => f) mt context slots w n).world s := by
        unfold stuck at hs ⊢
        rw [h1]
        exact hs
      simp only [query_loop]
      rw [query_body_stuck b f mt context n _ s hcur hs1, h1]

/-- Under the wait-current policy and a backend that answers by device and signal alone, a
second `query` right after the first returns what the first returned. -/
theorem query_loop_twice (b : Build) (f : Int → libxstream_signal → Bool) (mt : Match)
    (context : Nat) (slots : Nat → slot_type) (w : World) (n : Nat)
    (hcur : b.LIBXSTREAM_WAIT_PAST = false) :
    (query_loop b (fun _ => f) mt context
        (query_loop b (fun _ => f) mt context slots w n).slots
        (query_loop b (fun _ => f) mt context slots w n).world n).result =
      (query_loop b (fun _ => f) mt context slots w n).result := by
  rw [Bool.eq_iff_iff, query_loop_result, query_loop_result]
  constructor
  · intro h2 j hj hmj
    by_contra hp
    have hfin := query_loop_slot_final b (fun _ => f) mt context slots w n j hj
    have hvis : mt context (slots j).m_stream = true ∧ (slots j).m_pending ≠ 0 := by
      refine ⟨hmj, fun hz => hp ?_⟩
      rw [hfin, if_neg (fun hv => hv.2 hz)]
      exact hz
    rw [if_pos hvis] at hfin
    rw [hfin] at hp
    have hst := update_current_left b f _ _ hcur hp
    have hsame := (update_stuck_self b f _ _ hcur hst).1
    have hq1 : (query_loop b (fun _ => f) mt context slots w n).slots j = slots j := by
      rw [hfin, hsame]
    have hw1 := query_loop_stuck b f mt context slots w (slots j).m_stream j hcur hst n (by omega)
    have hst1 : stuck b f (query_loop b (fun _ => f) mt context slots w n).world
        (slots j).m_stream := by
      unfold stuck at hst ⊢
      rw [hw1]
      exact hst
    have hw2 := query_loop_stuck b f mt context
      (query_loop b (fun _ => f) mt context slots w n).slots
      (query_loop b (fun _ => f) mt context slots w n).world (slots j).m_stream 0 hcur hst1 j
      (Nat.zero_le _)
    have hst2 : stuck b f (query_loop b (fun _ => f) mt context
        (query_loop b (fun _ => f) mt context slots w n).slots
        (query_loop b (fun _ => f) mt context slots w n).world j).world (slots j).m_stream := by
      unfold stuck at hst1 ⊢
      rw [hw2]
      exact hst1
    have h2j := h2 j hj (by rw [hq1]; exact hmj)
    rw [query_loop_slot_final b (fun _ => f) mt context _ _ n j hj, hq1, if_pos hvis,
      (update_stuck_self b f _ _ hcur hst2).1] at h2j
    exact hvis.2 h2j
  · intro h1 j hj hmj
    rw [query_loop_stream] at hmj
    rcases query_loop_pending b (fun _ => f) mt context
      (query_loop b (fun _ => f) mt context slots w n).slots
      (query_loop b (fun _ => f) mt context slots w n).world n j with h | h
    · exact h
    · rw [h]; exact h1 j hj hmj

/-! ## Claims on enqueue -/

/-- C4: starting from a freshly constructed event, a run of `n <= capacity` calls
`enqueue(stream, false)` on arbitrary streams succeeds and leaves `expected = n`; this holds
after every initial part of the run, and every single call made with `expected < capacity`
succeeds and increases `expected` by exactly one. -/
theorem C4_enqueue_counts (b : Build) (slots : Nat → slot_type) (calls : List (World × Nat))
    (h : calls.length ≤ capacity b) :
    (∃ ev, enqueue_seq b calls (libxstream_event.create slots) = Except.ok ev ∧
        ev.m_expected = calls.length) ∧
    (∀ k, k ≤ calls.length →
      ∃ ev, enqueue_seq b (calls.take k) (libxstream_event.create slots) = Except.ok ev ∧
        ev.m_expected = k) ∧
    (∀ (ev : libxstream_event) (w : World) (stream : Nat), ev.m_expected < capacity b →
      ∃ ev1, libxstream_event.enqueue b w ev stream false = Except.ok ev1 ∧
        ev1.m_expected = ev.m_expected + 1) := by
  refine ⟨?_, ?_, ?_⟩
  · obtain ⟨ev, h1, h2⟩ := enqueue_seq_expected b calls (libxstream_event.create slots)
      (by simpa [libxstream_event.create] using h)
    exact ⟨ev, h1, by simpa [libxstream_event.create] using h2⟩
  · intro k hk
    have hl : (calls.take k).length = k := by simp [List.length_take, hk]
    obtain ⟨ev, h1, h2⟩ := enqueue_seq_expected b (calls.take k) (libxstream_event.create slots)
      (by simp only [libxstream_event.create, hl]; omega)
    exact ⟨ev, h1, by simpa [libxstream_event.create, hl] using h2⟩
  · intro ev w stream hlt
    exact ⟨_, enqueue_append b w ev stream hlt, rfl⟩

/-- C4 at three calls on the streams 5, 6, 5 in a build with four slots. -/
theorem C4_enqueue_counts_witness :
    [(world_busy, 5), (world_idle, 6), (world_busy, 5)].length ≤ capacity build_default ∧
    ∃ ev, enqueue_seq build_default [(world_busy, 5), (world_idle, 6), (world_busy, 5)]
        (libxstream_event.create slots_empty) = Except.ok ev ∧
      ev.m_expected = [(world_busy, 5), (world_idle, 6), (world_busy, 5)].length :=
  ⟨by decide, (C4_enqueue_counts build_default slots_empty
    [(world_busy, 5), (world_idle, 6), (world_busy, 5)] (by decide)).1⟩

/-- C5: on every event with `expected <= capacity`, a full one included, `enqueue(stream, true)`
succeeds, leaves `expected = 1`, and slot 0 holds the stream and the signal the stream has at
the call. -/
theorem C5_enqueue_reset (b : Build) (ev : libxstream_event) (w : World) (stream : Nat)
    (h : ev.m_expected ≤ capacity b) :
    ∃ ev1, libxstream_event.enqueue b w ev stream true = Except.ok ev1 ∧
      ev1.m_expected = 1 ∧ (ev1.m_slots 0).m_stream = stream ∧
      (ev1.m_slots 0).m_pending = (w.streams stream).pending :=
  ⟨_, enqueue_reset b w ev stream h, rfl, by simp [set_slot, slot_type.of_stream],
    by simp [set_slot, slot_type.of_stream]⟩

/-- C5 on a full event of a debug build. -/
theorem C5_enqueue_reset_witness :
    event_full.m_expected ≤ capacity build_debug ∧
    ∃ ev1, libxstream_event.enqueue build_debug world_busy event_full 3 true = Except.ok ev1 ∧
      ev1.m_expected = 1 ∧ (ev1.m_slots 0).m_stream = 3 ∧
      (ev1.m_slots 0).m_pending = (world_busy.streams 3).pending :=
  ⟨by decide, C5_enqueue_reset build_debug event_full world_busy 3 (by decide)⟩

/-- C6, as stated, fails: without `LIBXSTREAM_DEBUG` the assertion is not compiled, and
`enqueue(stream, false)` on a full event returns; with four slots the fifth call on a fresh
event returns as well and leaves `expected = 5`. -/
theorem C6_counterexample :
    build_default.LIBXSTREAM_DEBUG = false ∧ capacity build_default = 4 ∧
    event_full.m_expected = capacity build_default ∧
    (∃ ev1, libxstream_event.enqueue build_default world_busy event_full 3 false
        = Except.ok ev1 ∧ ev1.m_expected = 5) ∧
    (∃ ev, enqueue_seq build_default appends_five (libxstream_event.create slots_empty)
        = Except.ok ev ∧ ev.m_expected = 5) :=
  ⟨rfl, by decide, by decide, ⟨_, rfl, rfl⟩, ⟨_, rfl, rfl⟩⟩

/-- C6, amended: on an event with `expected <= capacity`, `enqueue(stream, false)` succeeds when
`expected < capacity`, in every build; in a build with `LIBXSTREAM_DEBUG` it is the assertion
failure exactly when `expected = capacity`, and with four slots four calls on a fresh event
succeed and the fifth is the assertion failure. -/
theorem C6_enqueue_capacity (b : Build) (ev : libxstream_event) (w : World) (stream : Nat)
    (h : ev.m_expected ≤ capacity b) :
    (ev.m_expected < capacity b →
        ∃ ev1, libxstream_event.enqueue b w ev stream false = Except.ok ev1 ∧
          ev1.m_expected = ev.m_expected + 1) ∧
    (b.LIBXSTREAM_DEBUG = true →
      (libxstream_event.enqueue b w ev stream false = Except.error Fault.assertion ↔
        ev.m_expected = capacity b) ∧
      ((∃ f, libxstream_event.enqueue b w ev stream false = Except.error f) ↔
        ev.m_expected = capacity b)) ∧
    (b.LIBXSTREAM_DEBUG = true → capacity b = 4 →
      ∀ (slots : Nat → slot_type) (c1 c2 c3 c4 c5 : World × Nat),
        ∃ ev4, enqueue_seq b [c1, c2, c3, c4] (libxstream_event.create slots) = Except.ok ev4 ∧
          libxstream_event.enqueue b c5.1 ev4 c5.2 false = Except.error Fault.assertion ∧
          enqueue_seq b [c1, c2, c3, c4, c5] (libxstream_event.create slots) =
            Except.error Fault.assertion) := by
  refine ⟨?_, ?_, ?_⟩
  · intro hlt
    exact ⟨_, enqueue_append b w ev stream hlt, rfl⟩
  · intro hd
    have hfull : ev.m_expected = capacity b →
        libxstream_event.enqueue b w ev stream false = Except.error Fault.assertion :=
      fun heq => enqueue_full b w ev stream hd (by omega)
    have hroom : ∀ f, libxstream_event.enqueue b w ev stream false = Except.error f →
        ev.m_expected = capacity b := by
      intro f hf
      by_contra hne
      have hlt : ev.m_expected < capacity b := lt_of_le_of_ne h hne
      rw [enqueue_append b w ev stream hlt] at hf
      cases hf
    exact ⟨⟨hroom _, hfull⟩, ⟨fun ⟨f, hf⟩ => hroom f hf, fun heq => ⟨_, hfull heq⟩⟩⟩
  · intro hd h4 slots c1 c2 c3 c4 c5
    have e0 : (libxstream_event.create slots).m_expected < capacity b := by
      simp [libxstream_event.create, h4]
    simp only [enqueue_seq]
    rw [enqueue_append b c1.1 _ c1.2 e0]
    simp only [libxstream_event.create]
    rw [enqueue_append b c2.1 _ c2.2 (by simp [h4])]
    simp only []
    rw [enqueue_append b c3.1 _ c3.2 (by simp [h4])]
    simp only []
    rw [enqueue_append b c4.1 _ c4.2 (by simp [h4])]
    simp only []
    refine ⟨_, rfl, ?_⟩
    rw [enqueue_full b c5.1 _ c5.2 hd (by simp [h4])]
    exact ⟨rfl, rfl⟩

/-- C6, amended, on a full event of a debug build with four slots: the call is the assertion
failure. -/
theorem C6_enqueue_capacity_witness :
    event_full.m_expected ≤ capacity build_debug ∧
    libxstream_event.enqueue build_debug world_busy event_full 3 false =
      Except.error Fault.assertion :=
  ⟨by decide, ((C6_enqueue_capacity build_debug event_full world_busy 3 (by decide)).2.1
    rfl).1.mpr (by decide)⟩

/-! ## Claims on query -/

/-- C1: `query` returns true exactly when, after the call, none of the first `expected` slots
that matches the context has a non-zero captured signal; so it returns true when `expected` is
zero and when no active slot matches the context. -/
theorem C1_query_result (b : Build) (fired : Backend) (mt : Match) (ev : libxstream_event)
    (w : World) (context : Nat) :
    ((libxstream_event.query b fired mt ev w context).1 = true ↔
      ∀ i, i < ev.m_expected →
        mt context ((libxstream_event.query b fired mt ev w context).2.1.m_slots i).m_stream
          = true →
        ((libxstream_event.query b fired mt ev w context).2.1.m_slots i).m_pending = 0) ∧
    (ev.m_expected = 0 → (libxstream_event.query b fired mt ev w context).1 = true) ∧
    ((∀ i, i < ev.m_expected → mt context (ev.m_slots i).m_stream = false) →
      (libxstream_event.query b fired mt ev w context).1 = true) := by
  have key := query_loop_result b fired mt context ev.m_slots w ev.m_expected
  have hst : ∀ i, ((query_loop b fired mt context ev.m_slots w ev.m_expected).slots i).m_stream
      = (ev.m_slots i).m_stream := fun i => query_loop_stream b fired mt context ev.m_slots w _ i
  refine ⟨?_, ?_, ?_⟩
  · simp only [libxstream_event.query]
    rw [key]
    constructor
    · intro h i hi hm
      rw [hst] at hm
      exact h i hi hm
    · intro h i hi hm
      exact h i hi (by rw [hst]; exact hm)
  · intro h0
    simp only [libxstream_event.query]
    rw [key]
    intro i hi
    omega
  · intro hno
    simp only [libxstream_event.query]
    rw [key]
    intro i hi hm
    rw [hno i hi] at hm
    cases hm
/-- C2, as stated, fails: in a build that waits for the captured signal by a blocking wait on
the backend, with the single stream on the host, `wait` without context filter returns without
having blocked on any signal, and the `query` right after it returns false. -/
theorem C2_counterexample :
    (∀ i, i < event_corner.m_expected → (event_corner.m_slots i).m_stream = 1) ∧
    (∀ i, i < event_corner.m_expected →
      match_stream 0 (event_corner.m_slots i).m_stream = true) ∧
    ∃ r, libxstream_event.wait build_past_offload backend_never match_stream 0 event_corner
        world_host 0 = Except.ok r ∧
      r.2.waits.drop world_host.waits.length = [] ∧
      (libxstream_event.query build_past_offload backend_never match_stream r.1 r.2 0).1
        = false :=
  ⟨by decide, by decide, _, rfl, rfl, rfl⟩

/-- C1 on an event with two active slots on stream 1, polled in the context of stream 2: no
active slot matches, and `query` returns true although the backend never fires. -/
theorem C1_query_result_witness :
    (∀ i, i < event_corner.m_expected →
      match_stream 2 (event_corner.m_slots i).m_stream = false) ∧
    (libxstream_event.query build_offload backend_never match_stream event_corner
      world_device 2).1 = true :=
  ⟨by decide, (C1_query_result build_offload backend_never match_stream event_corner
    world_device 2).2.2 (by decide)⟩

/-- C2, amended: when all active slots are on one stream and match the context, and `wait` has
returned, the `query` right after it returns true, provided the backend reports as fired every
signal the `wait` blocked on and, in a build that waits for the captured signal by a blocking
wait on the backend, the stream is on a device (`0 <= device()`). -/
theorem C2_wait_then_query (b : Build) (fired fired2 : Backend) (mt : Match) (fuel : Nat)
    (ev : libxstream_event) (w : World) (context s : Nat) (r : libxstream_event × World)
    (hone : ∀ i, i < ev.m_expected → (ev.m_slots i).m_stream = s)
    (hall : ∀ i, i < ev.m_expected → mt context (ev.m_slots i).m_stream = true)
    (hwait : libxstream_event.wait b fired mt fuel ev w context = Except.ok r)
    (hfired : ∀ p, p ∈ r.2.waits.drop w.waits.length → ∀ t, fired2 t p.1 p.2 = true)
    (hdev : b.LIBXSTREAM_WAIT_PAST = true → b.LIBXSTREAM_OFFLOAD = true →
      b.LIBXSTREAM_WAIT_OCCURRED = false → 0 ≤ (w.streams s).device) :
    (libxstream_event.query b fired2 mt r.1 r.2 context).1 = true :=
  wait_then_query b fired fired2 mt fuel ev w context r hall hwait hfired
    (fun h1 h2 h3 i hi => by rw [hone i hi]; exact hdev h1 h2 h3)

/-- C2, amended, on the event of the counterexample with its stream on device 0: `wait` blocks on
the captured signal 5, and the backend of the `query` reports every signal as fired. -/
theorem C2_wait_then_query_witness :
    0 ≤ (world_device.streams 1).device ∧
    ∃ r, libxstream_event.wait build_past_offload backend_never match_stream 0 event_corner
        world_device 0 = Except.ok r ∧
      r.2.waits = [(0, 5)] ∧
      (libxstream_event.query build_past_offload backend_always match_stream r.1 r.2 0).1
        = true :=
  ⟨by decide, _, rfl, rfl,
    C2_wait_then_query build_past_offload backend_never backend_always match_stream 0
      event_corner world_device 0 1 _ (by decide) (by decide) rfl (fun _ _ _ => rfl)
      (fun _ _ _ => by decide)⟩

/-- C3: under the wait-current policy, with a backend whose answer is a fixed function of device
and signal, two `query` calls in a row (the second on the event and the world the first left)
return the same value, for every event, world and context. -/
theorem C3_query_idempotent (b : Build) (f : Int → libxstream_signal → Bool) (mt : Match)
    (ev : libxstream_event) (w : World) (context : Nat)
    (hcur : b.LIBXSTREAM_WAIT_PAST = false) :
    (libxstream_event.query b (fun _ => f) mt
        (libxstream_event.query b (fun _ => f) mt ev w context).2.1
        (libxstream_event.query b (fun _ => f) mt ev w context).2.2 context).1 =
      (libxstream_event.query b (fun _ => f) mt ev w context).1 := by
  simp only [libxstream_event.query]
  exact query_loop_twice b f mt context ev.m_slots w ev.m_expected hcur

/-- C3 on an event whose stream stays pending: both calls return false. -/
theorem C3_query_idempotent_witness :
    build_offload.LIBXSTREAM_WAIT_PAST = false ∧
    (libxstream_event.query build_offload (fun _ => backend_below) match_stream event_corner
      world_device 0).1 = false ∧
    (libxstream_event.query build_offload (fun _ => backend_below) match_stream
        (libxstream_event.query build_offload (fun _ => backend_below) match_stream event_corner
          world_device 0).2.1
        (libxstream_event.query build_offload (fun _ => backend_below) match_stream event_corner
          world_device 0).2.2 0).1 =
      (libxstream_event.query build_offload (fun _ => backend_below) match_stream event_corner
        world_device 0).1 :=
  ⟨rfl, rfl, C3_query_idempotent build_offload backend_below match_stream event_corner
    world_device 0 rfl⟩

/-! ## Claims on wait and on runs of calls -/

theorem enqueue_ok_expected (b : Build) (w : World) (ev ev1 : libxstream_event) (stream : Nat)
    (reset : Bool) (h : libxstream_event.enqueue b w ev stream reset = Except.ok ev1) :
    (b.LIBXSTREAM_DEBUG = true → ev1.m_expected ≤ capacity b) ∧
      ev1.m_expected = (if reset = true then 0 else ev.m_expected) + 1 ∧
      ∀ j, j ≠ (if reset = true then 0 else ev.m_expected) →
        (ev1.m_slots j).m_pending = 0 ∨ ev1.m_slots j = ev.m_slots j := by
  cases reset with
  | false =>
    obtain ⟨h1, h2⟩ := enqueue_ok_append b w ev ev1 stream h
    subst h1
    refine ⟨fun hd => by have := h2 hd; simp only []; omega, by simp, ?_⟩
    intro j hj
    simp only [Bool.false_eq_true, if_false] at hj
    right
    simp [set_slot, hj]
  | true =>
    have hc := capacity_pos b
    unfold libxstream_event.enqueue enqueue_static at h
    simp only [if_true, true_and] at h
    split_ifs at h
    all_goals
      simp only [Except.ok.injEq] at h
      subst h
      refine ⟨fun _ => by simp only []; omega, by simp, ?_⟩
      intro j hj
      simp only [if_true] at hj
      by_cases hj2 : j < capacity b
      · first
          | (left; simp [set_slot, hj, hj2, slot_type.empty]; done)
          | (right; simp [set_slot, hj])
      · right; simp [set_slot, hj, hj2]

theorem wait_loop_pending (b : Build) (fired : Backend) (mt : Match) (context fuel : Nat)
    (slots : Nat → slot_type) (w : World) (j : Nat) :
    ∀ k st, wait_loop b fired mt context fuel slots w k = Except.ok st →
      (st.slots j).m_pending = 0 ∨ st.slots j = slots j := by
  apply wait_loop_induct
  · exact Or.inr rfl
  · intro k st st1 _ hP hb
    obtain ⟨-, -, h3, -⟩ := wait_body_ok b fired mt context fuel k st st1 hb
    rcases h3 j with h | h
    · exact Or.inl h
    · rw [h]; exact hP

/-- What one call does to `expected` and to a slot that is not pending. -/
theorem call_run_ok (b : Build) (mt : Match) (c : Call) (ev ev1 : libxstream_event)
    (h : call_run b mt c ev = Except.ok ev1) :
    (b.LIBXSTREAM_DEBUG = true → ev.m_expected ≤ capacity b → ev1.m_expected ≤ capacity b) ∧
    (c.is_enqueue = false → ∀ j, (ev.m_slots j).m_pending = 0 → (ev1.m_slots j).m_pending = 0) := by
  cases c with
  | enqueue w stream reset =>
    simp only [call_run] at h
    exact ⟨fun hd _ => (enqueue_ok_expected b w ev ev1 stream reset h).1 hd,
      by simp [Call.is_enqueue]⟩
  | query fired w context =>
    simp only [call_run, Except.ok.injEq, libxstream_event.query] at h
    subst h
    refine ⟨fun _ h => h, fun _ j hj => ?_⟩
    rcases query_loop_pending b fired mt context ev.m_slots w ev.m_expected j with h | h
    · exact h
    · simp only [h, hj]
  | wait fired fuel w context =>
    simp only [call_run] at h
    cases hw : libxstream_event.wait b fired mt fuel ev w context with
    | error f => rw [hw] at h; cases h
    | ok r =>
      rw [hw] at h
      simp only [Except.ok.injEq] at h
      obtain ⟨st, h1, h2, h3⟩ := wait_ok_inv b fired mt fuel ev w context r hw
      subst h3
      subst h
      refine ⟨fun _ h => by simp only []; omega, fun _ j hj => ?_⟩
      rcases wait_loop_pending b fired mt context fuel ev.m_slots w j _ st h1 with h | h
      · exact h
      · simp only [h, hj]
  | update fired w i =>
    simp only [call_run, Except.ok.injEq] at h
    subst h
    refine ⟨fun _ h => h, fun _ j hj => ?_⟩
    by_cases hji : j = i
    · subst hji
      simp only [set_slot, if_true, update_zero b fired _ w hj, hj]
    · simp only [set_slot, if_neg hji, hj]

theorem calls_run_ok (b : Build) (mt : Match) (calls : List Call) :
    ∀ (ev ev1 : libxstream_event), calls_run b mt calls ev = Except.ok ev1 →
      (b.LIBXSTREAM_DEBUG = true → ev.m_expected ≤ capacity b → ev1.m_expected ≤ capacity b) ∧
      ((∀ c, c ∈ calls → c.is_enqueue = false) →
        ∀ j, (ev.m_slots j).m_pending = 0 → (ev1.m_slots j).m_pending = 0) := by
  induction calls with
  | nil =>
    intro ev ev1 h
    simp only [calls_run, Except.ok.injEq] at h
    subst h
    exact ⟨fun _ h => h, fun _ _ h => h⟩
  | cons c calls ih =>
    intro ev ev1 h
    simp only [calls_run] at h
    cases hc : call_run b mt c ev with
    | error f => rw [hc] at h; cases h
    | ok ev2 =>
      rw [hc] at h
      obtain ⟨a1, a2⟩ := call_run_ok b mt c ev ev2 hc
      obtain ⟨b1, b2⟩ := ih ev2 ev1 h
      refine ⟨fun hd h => b1 hd (a1 hd h), fun hq j hj => ?_⟩
      exact b2 (fun c1 hc1 => hq c1 (List.mem_cons_of_mem _ hc1)) j
        (a2 (hq c (List.mem_cons_self _ _)) j hj)

/-- C8: a `wait` that returns leaves `expected` at its previous value minus the number of rounds
that handled their slot; that number never exceeds the previous `expected`, the assertion never
fails, and `wait` does return: always with the blocking wait, and in the spin build with fuel
`T + 1` once the backend reports every signal as fired from poll `T` on. -/
theorem C8_wait_postcondition (b : Build) (fired : Backend) (mt : Match) (fuel : Nat)
    (ev : libxstream_event) (w : World) (context : Nat) :
    (∀ r, libxstream_event.wait b fired mt fuel ev w context = Except.ok r →
      r.1.m_expected = ev.m_expected -
        wait_completed b fired mt context fuel ev.m_slots w ev.m_expected) ∧
    wait_completed b fired mt context fuel ev.m_slots w ev.m_expected ≤ ev.m_expected ∧
    libxstream_event.wait b fired mt fuel ev w context ≠ Except.error Fault.assertion ∧
    (b.LIBXSTREAM_WAIT_OCCURRED = false →
      ∃ r, libxstream_event.wait b fired mt fuel ev w context = Except.ok r) ∧
    (∀ T, (∀ t d s, T ≤ t → fired t d s = true) →
      ∃ r, libxstream_event.wait b fired mt (T + 1) ev w context = Except.ok r) := by
  refine ⟨?_, wait_completed_le _ _ _ _ _ _ _ _, ?_, ?_, ?_⟩
  · intro r hr
    obtain ⟨st, h1, -, h3⟩ := wait_ok_inv b fired mt fuel ev w context r hr
    subst h3
    simp only [wait_loop_completed b fired mt context fuel ev.m_slots w _ st h1]
  · intro hf
    cases hl : wait_loop b fired mt context fuel ev.m_slots w ev.m_expected with
    | error f =>
      have hne : f ≠ Fault.assertion := by
        intro hfa
        subst hfa
        clear hf
        generalize ev.m_expected = n at hl
        induction n with
        | zero => simp [wait_loop] at hl
        | succ n ih =>
          simp only [wait_loop] at hl
          cases hn : wait_loop b fired mt context fuel ev.m_slots w n with
          | error f1 =>
            rw [hn] at hl
            simp only [Except.error.injEq] at hl
            subst hl
            exact ih hn
          | ok st =>
            rw [hn] at hl
            unfold wait_body at hl
            simp only [] at hl
            split_ifs at hl
            cases hs : spin b fired fuel (st.slots n) st.world with
            | none => rw [hs] at hl; simp at hl
            | some r => rw [hs] at hl; simp at hl
      unfold libxstream_event.wait at hf
      rw [hl] at hf
      simp only [Except.error.injEq] at hf
      exact hne hf
    | ok st =>
      rw [wait_of_loop b fired mt fuel ev w context st hl] at hf
      cases hf
  · intro ho
    obtain ⟨st, hst⟩ := wait_loop_total b fired mt context fuel ev.m_slots w
      (fun h => by rw [ho] at h; cases h) ev.m_expected
    exact ⟨_, wait_of_loop b fired mt fuel ev w context st hst⟩
  · intro T hT
    obtain ⟨st, hst⟩ := wait_loop_total b fired mt context (T + 1) ev.m_slots w
      (fun _ => ⟨T, rfl, hT⟩) ev.m_expected
    exact ⟨_, wait_of_loop b fired mt (T + 1) ev w context st hst⟩

/-- C8 on an event with two active slots of which one is handled: `expected` goes from 2 to 1. -/
theorem C8_wait_postcondition_witness :
    wait_completed build_past_offload backend_never match_stream 0 0 event_corner.m_slots
      world_device event_corner.m_expected = 1 ∧
    ∃ r, libxstream_event.wait build_past_offload backend_never match_stream 0 event_corner
        world_device 0 = Except.ok r ∧
      r.1.m_expected = event_corner.m_expected -
        wait_completed build_past_offload backend_never match_stream 0 0 event_corner.m_slots
          world_device event_corner.m_expected :=
  ⟨by decide, _, rfl, (C8_wait_postcondition build_past_offload backend_never match_stream 0
    event_corner world_device 0).1 _ rfl⟩

/-- C9: on an event with `expected = 0`, whatever its slots hold, `query` returns true and
`wait` with any context returns at once: no poll, no blocking wait, and the event, the slots
and the streams are as before. -/
theorem C9_nothing_expected (b : Build) (fired : Backend) (mt : Match) (fuel : Nat)
    (ev : libxstream_event) (w : World) (context : Nat) (h : ev.m_expected = 0) :
    (libxstream_event.query b fired mt ev w context).1 = true ∧
    libxstream_event.wait b fired mt fuel ev w context = Except.ok (ev, w) := by
  cases ev with
  | mk slots expected =>
    simp only [] at h
    subst h
    exact ⟨rfl, rfl⟩

/-- C9 on a freshly constructed event, with busy streams and a backend that never fires. -/
theorem C9_nothing_expected_witness :
    (libxstream_event.create slots_empty).m_expected = 0 ∧
    (libxstream_event.query build_default backend_never match_stream
      (libxstream_event.create slots_empty) world_busy 0).1 = true ∧
    libxstream_event.wait build_default backend_never match_stream 0
      (libxstream_event.create slots_empty) world_busy 0 =
        Except.ok (libxstream_event.create slots_empty, world_busy) :=
  ⟨rfl, C9_nothing_expected build_default backend_never match_stream 0
    (libxstream_event.create slots_empty) world_busy 0 rfl⟩

/-- C10: a slot whose captured signal is 0 keeps it at 0 through `update` and through every
sequence of `update`, `query` and `wait` calls that return, under any contexts, backend answers
and worlds; a single call that leaves it non-zero is an `enqueue` that stores at its index a
stream with a non-zero signal. -/
theorem C10_retired_stays_retired (b : Build) (mt : Match) (ev : libxstream_event) (j : Nat)
    (h : (ev.m_slots j).m_pending = 0) :
    (∀ fired w, (update b fired (ev.m_slots j) w).1.m_pending = 0) ∧
    (∀ calls ev1, (∀ c, c ∈ calls → c.is_enqueue = false) →
      calls_run b mt calls ev = Except.ok ev1 → (ev1.m_slots j).m_pending = 0) ∧
    (∀ c ev1, call_run b mt c ev = Except.ok ev1 → (ev1.m_slots j).m_pending ≠ 0 →
      ∃ w stream reset, c = Call.enqueue w stream reset ∧
        j = (if reset = true then 0 else ev.m_expected) ∧ (w.streams stream).pending ≠ 0) := by
  refine ⟨?_, ?_, ?_⟩
  · intro fired w
    rw [update_zero b fired _ w h]
    exact h
  · intro calls ev1 hq hr
    exact (calls_run_ok b mt calls ev ev1 hr).2 hq j h
  · intro c ev1 hr hne
    cases hc : c.is_enqueue with
    | false => exact absurd ((call_run_ok b mt c ev ev1 hr).2 hc j h) hne
    | true =>
      cases c with
      | enqueue w stream reset =>
        simp only [call_run] at hr
        obtain ⟨-, -, h3⟩ := enqueue_ok_expected b w ev ev1 stream reset hr
        by_cases hj : j = (if reset = true then 0 else ev.m_expected)
        · refine ⟨w, stream, reset, rfl, hj, ?_⟩
          intro hz
          apply hne
          unfold libxstream_event.enqueue enqueue_static at hr
          simp only [] at hr
          split_ifs at hr <;>
            (simp only [Except.ok.injEq] at hr
             subst hr
             simp_all [set_slot, slot_type.of_stream])
        · rcases h3 j hj with h4 | h4
          · exact absurd h4 hne
          · rw [h4] at hne
            exact absurd h hne
      | query _ _ _ => simp [Call.is_enqueue] at hc
      | wait _ _ _ _ => simp [Call.is_enqueue] at hc
      | update _ _ _ => simp [Call.is_enqueue] at hc

/-- C10 on the retired slot 0 of an event whose stream is busy again. -/
theorem C10_retired_stays_retired_witness :
    (event_retired.m_slots 0).m_pending = 0 ∧
    ∃ ev1, calls_run build_default match_stream calls_quiet event_retired = Except.ok ev1 ∧
      (ev1.m_slots 0).m_pending = 0 :=
  ⟨rfl, _, rfl, (C10_retired_stays_retired build_default match_stream event_retired 0 rfl).2.1
    calls_quiet _ (by
      intro c hc
      simp only [calls_quiet, List.mem_cons, List.mem_singleton, List.not_mem_nil, or_false] at hc
      rcases hc with h | h | h <;> rw [h] <;> rfl) rfl⟩

/-! ## update, case by case -/

theorem update_not_signaled (b : Build) (fired : Backend) (slot : slot_type) (w : World)
    (hs : slot.m_pending ≠ 0) (hw : (w.streams slot.m_stream).pending ≠ 0)
    (hf : signaled b fired w.polls (w.streams slot.m_stream).device (tested b slot w) = false) :
    update b fired slot w = (slot, ⟨w.streams, w.polls + 1, w.waits⟩) := by
  unfold signaled tested at hf
  unfold update
  cases ho : b.LIBXSTREAM_OFFLOAD with
  | false => simp [ho] at hf
  | true =>
    simp only [ho, if_true] at hf
    simp [hs, hw, hf]

theorem update_signaled (b : Build) (fired : Backend) (slot : slot_type) (w : World)
    (hs : slot.m_pending ≠ 0) (hw : (w.streams slot.m_stream).pending ≠ 0)
    (hf : signaled b fired w.polls (w.streams slot.m_stream).device (tested b slot w) = true) :
    (update b fired slot w).1 = ⟨slot.m_stream, 0⟩ ∧
    (update b fired slot w).2.waits = w.waits ∧
    (tested b slot w = (w.streams slot.m_stream).pending →
      (update b fired slot w).2.streams = (w.set_pending slot.m_stream 0).streams) ∧
    (tested b slot w ≠ (w.streams slot.m_stream).pending →
      (update b fired slot w).2.streams = w.streams) := by
  unfold signaled tested at hf
  unfold tested
  unfold update
  cases ho : b.LIBXSTREAM_OFFLOAD with
  | false =>
    simp only [ho, hs, hw, ne_eq, not_false_eq_true, if_true, Bool.false_eq_true, if_false]
    refine ⟨trivial, ?_, ?_, ?_⟩
    · split_ifs <;> rfl
    · intro h; rw [if_pos h]
    · intro h; rw [if_neg h]
  | true =>
    simp only [ho, if_true] at hf
    simp only [ho, hs, hw, hf, ne_eq, not_false_eq_true, if_true]
    refine ⟨trivial, ?_, ?_, ?_⟩
    · split_ifs <;> rfl
    · intro h; rw [if_pos h]; rfl
    · intro h; rw [if_neg h]

/-- C17: `update` on a slot whose captured signal is 0 changes nothing. On a pending slot: if
the stream is idle, the slot is retired and nothing else changes; otherwise the signal selected
by the policy is tested, and if it has not fired, slot, streams and waits are as before; if it
has fired, the slot is retired and the signal of its stream is cleared exactly when the tested
signal is the signal of the stream, which it always is under the wait-current policy. -/
theorem C17_update_cases (b : Build) (fired : Backend) (slot : slot_type) (w : World) :
    (slot.m_pending = 0 → update b fired slot w = (slot, w)) ∧
    (slot.m_pending ≠ 0 → (w.streams slot.m_stream).pending = 0 →
      update b fired slot w = (⟨slot.m_stream, 0⟩, w)) ∧
    (slot.m_pending ≠ 0 → (w.streams slot.m_stream).pending ≠ 0 →
      signaled b fired w.polls (w.streams slot.m_stream).device (tested b slot w) = false →
      (update b fired slot w).1 = slot ∧ (update b fired slot w).2.streams = w.streams ∧
        (update b fired slot w).2.waits = w.waits) ∧
    (slot.m_pending ≠ 0 → (w.streams slot.m_stream).pending ≠ 0 →
      signaled b fired w.polls (w.streams slot.m_stream).device (tested b slot w) = true →
      (update b fired slot w).1 = ⟨slot.m_stream, 0⟩ ∧
        (update b fired slot w).2.waits = w.waits ∧
        (tested b slot w = (w.streams slot.m_stream).pending →
          ((update b fired slot w).2.streams slot.m_stream).pending = 0 ∧
          ∀ t, t ≠ slot.m_stream → (update b fired slot w).2.streams t = w.streams t) ∧
        (tested b slot w ≠ (w.streams slot.m_stream).pending →
          (update b fired slot w).2.streams = w.streams)) ∧
    (tested b slot w = if b.LIBXSTREAM_WAIT_PAST = true then slot.m_pending
      else (w.streams slot.m_stream).pending) ∧
    (b.LIBXSTREAM_WAIT_PAST = false → tested b slot w = (w.streams slot.m_stream).pending) := by
  refine ⟨update_zero b fired slot w, fun hs hw => update_idle b fired slot w hs hw, ?_, ?_,
    rfl, ?_⟩
  · intro hs hw hf
    rw [update_not_signaled b fired slot w hs hw hf]
    exact ⟨rfl, rfl, rfl⟩
  · intro hs hw hf
    obtain ⟨h1, h2, h3, h4⟩ := update_signaled b fired slot w hs hw hf
    refine ⟨h1, h2, fun he => ?_, h4⟩
    rw [h3 he]
    exact ⟨set_pending_self _ _ _, fun t ht => set_pending_other _ _ _ _ ht⟩
  · intro hc
    simp [tested, hc]

/-- C17 on a pending slot of a busy stream whose signal the backend reports as fired: the slot
is retired. -/
theorem C17_update_cases_witness :
    (event_single.m_slots 0).m_pending ≠ 0 ∧
    (world_device.streams (event_single.m_slots 0).m_stream).pending ≠ 0 ∧
    (update build_offload backend_always (event_single.m_slots 0) world_device).1 = ⟨1, 0⟩ :=
  ⟨by decide, by decide,
    ((C17_update_cases build_offload backend_always (event_single.m_slots 0)
      world_device).2.2.2.1 (by decide) (by decide) rfl).1⟩

/-! ## Frames of query, enqueue and wait -/

theorem set_slot_self (slots : Nat → slot_type) (i : Nat) :
    set_slot slots i (slots i) = slots := by
  funext j
  simp only [set_slot]
  split_ifs with h
  · rw [h]
  · rfl

theorem slot_eq (s1 s2 : slot_type) (h1 : s1.m_stream = s2.m_stream)
    (h2 : s1.m_pending = s2.m_pending) : s1 = s2 := by
  cases s1
  cases s2
  simp only [slot_type.mk.injEq]
  exact ⟨h1, h2⟩

/-- A slot that does not match the context is untouched by the loop of `query`. -/
theorem query_loop_no_match (b : Build) (fired : Backend) (mt : Match) (context : Nat)
    (slots : Nat → slot_type) (w : World) (n j : Nat)
    (h : mt context (slots j).m_stream = false) :
    (query_loop b fired mt context slots w n).slots j = slots j := by
  by_cases hj : j < n
  · rw [query_loop_slot_final b fired mt context slots w n j hj, if_neg]
    rintro ⟨hm, -⟩
    rw [h] at hm
    cases hm
  · exact query_loop_slots_ge b fired mt context slots w n j (by omega)

/-- C14: `query` leaves `expected` and every stream reference as they are, leaves every slot at
an index from `expected` on and every slot that does not match the context untouched, and
changes a slot only by taking its captured signal from non-zero to 0. -/
theorem C14_query_frame (b : Build) (fired : Backend) (mt : Match) (ev : libxstream_event)
    (w : World) (context : Nat) :
    (libxstream_event.query b fired mt ev w context).2.1.m_expected = ev.m_expected ∧
    (∀ j, ((libxstream_event.query b fired mt ev w context).2.1.m_slots j).m_stream =
      (ev.m_slots j).m_stream) ∧
    (∀ j, ev.m_expected ≤ j →
      (libxstream_event.query b fired mt ev w context).2.1.m_slots j = ev.m_slots j) ∧
    (∀ j, mt context (ev.m_slots j).m_stream = false →
      (libxstream_event.query b fired mt ev w context).2.1.m_slots j = ev.m_slots j) ∧
    (∀ j, (libxstream_event.query b fired mt ev w context).2.1.m_slots j = ev.m_slots j ∨
      ((ev.m_slots j).m_pending ≠ 0 ∧
        ((libxstream_event.query b fired mt ev w context).2.1.m_slots j).m_pending = 0)) := by
  simp only [libxstream_event.query]
  refine ⟨trivial, fun j => query_loop_stream b fired mt context ev.m_slots w _ j,
    fun j hj => query_loop_slots_ge b fired mt context ev.m_slots w _ j hj,
    fun j hj => query_loop_no_match b fired mt context ev.m_slots w _ j hj, fun j => ?_⟩
  rcases query_loop_pending b fired mt context ev.m_slots w ev.m_expected j with h | h
  · by_cases hz : (ev.m_slots j).m_pending = 0
    · left
      exact slot_eq _ _ (query_loop_stream b fired mt context ev.m_slots w _ j) (by rw [h, hz])
    · exact Or.inr ⟨hz, h⟩
  · exact Or.inl h

/-- C14 on an event with two active slots on stream 1, polled in the context of stream 2: no
slot is changed. -/
theorem C14_query_frame_witness :
    match_stream 2 (event_corner.m_slots 0).m_stream = false ∧
    (libxstream_event.query build_offload backend_always match_stream event_corner
      world_device 2).2.1.m_slots 0 = event_corner.m_slots 0 :=
  ⟨by decide, (C14_query_frame build_offload backend_always match_stream event_corner
    world_device 2).2.2.2.1 0 (by decide)⟩

/-- C15: on an event with `expected = n < capacity`, `enqueue(s, false)` returns, leaves every
slot other than slot `n` as it is (the slots `0..n-1` in particular), stores at index `n` a slot
on `s` with the signal `s` has at the call, and sets `expected` to `n + 1`. The call reads the
world and returns none: no stream is written. -/
theorem C15_enqueue_frame (b : Build) (w : World) (ev : libxstream_event) (stream : Nat)
    (h : ev.m_expected < capacity b) :
    ∃ ev1, libxstream_event.enqueue b w ev stream false = Except.ok ev1 ∧
      ev1.m_expected = ev.m_expected + 1 ∧
      (∀ j, j < ev.m_expected → ev1.m_slots j = ev.m_slots j) ∧
      (∀ j, j ≠ ev.m_expected → ev1.m_slots j = ev.m_slots j) ∧
      ev1.m_slots ev.m_expected = ⟨stream, (w.streams stream).pending⟩ := by
  refine ⟨_, enqueue_append b w ev stream h, rfl, ?_, ?_, ?_⟩
  · intro j hj
    have : j ≠ ev.m_expected := by omega
    simp [set_slot, this]
  · intro j hj
    simp [set_slot, hj]
  · simp [set_slot, slot_type.of_stream]

/-- C15 on an event with two active slots in a build with four. -/
theorem C15_enqueue_frame_witness :
    event_corner.m_expected < capacity build_default ∧
    ∃ ev1, libxstream_event.enqueue build_default world_busy event_corner 3 false
        = Except.ok ev1 ∧
      ev1.m_expected = event_corner.m_expected + 1 ∧
      (∀ j, j < event_corner.m_expected → ev1.m_slots j = event_corner.m_slots j) ∧
      (∀ j, j ≠ event_corner.m_expected → ev1.m_slots j = event_corner.m_slots j) ∧
      ev1.m_slots event_corner.m_expected = ⟨3, (world_busy.streams 3).pending⟩ :=
  ⟨by decide, C15_enqueue_frame build_default world_busy event_corner 3 (by decide)⟩

/-- When no round finds its condition in the initial state, the loop of `wait` leaves the state
as it is. -/
theorem wait_loop_skip (b : Build) (fired : Backend) (mt : Match) (context fuel : Nat)
    (slots : Nat → slot_type) (w : World) :
    ∀ k, (∀ i, i < k → ¬ wait_cond mt context i ⟨slots, w, 0⟩) →
      wait_loop b fired mt context fuel slots w k = Except.ok ⟨slots, w, 0⟩ := by
  intro k
  induction k with
  | zero => intro _; rfl
  | succ k ih =>
    intro h
    simp only [wait_loop]
    rw [ih (fun i hi => h i (by omega))]
    exact wait_body_skip b fired mt context fuel k _ (h k (by omega))

theorem wait_skip (b : Build) (fired : Backend) (mt : Match) (fuel : Nat)
    (ev : libxstream_event) (w : World) (context : Nat)
    (h : ∀ i, i < ev.m_expected → ¬ wait_cond mt context i ⟨ev.m_slots, w, 0⟩) :
    libxstream_event.wait b fired mt fuel ev w context = Except.ok (ev, w) := by
  rw [wait_of_loop b fired mt fuel ev w context _
    (wait_loop_skip b fired mt context fuel ev.m_slots w ev.m_expected h)]
  cases ev
  rfl

/-- C13: `wait` in a context that matches none of the first `expected` slots returns at once:
no poll, no blocking wait, and `expected`, every slot and every stream are as before. -/
theorem C13_wait_no_match (b : Build) (fired : Backend) (mt : Match) (fuel : Nat)
    (ev : libxstream_event) (w : World) (context : Nat)
    (h : ∀ i, i < ev.m_expected → mt context (ev.m_slots i).m_stream = false) :
    libxstream_event.wait b fired mt fuel ev w context = Except.ok (ev, w) := by
  apply wait_skip
  intro i hi hc
  have := hc.1
  simp only [] at this
  rw [h i hi] at this
  cases this

/-- C13 on an event with two pending slots on stream 1, waited for in the context of stream 2,
in a spin build without fuel. -/
theorem C13_wait_no_match_witness :
    (∀ i, i < event_twice.m_expected →
      match_stream 2 (event_twice.m_slots i).m_stream = false) ∧
    libxstream_event.wait build_spin backend_never match_stream 0 event_twice world_device 2
      = Except.ok (event_twice, world_device) :=
  ⟨by decide, C13_wait_no_match build_spin backend_never match_stream 0 event_twice
    world_device 2 (by decide)⟩

/-! ## A build without backend -/

theorem update_host (b : Build) (fired : Backend) (slot : slot_type) (w : World)
    (hoff : b.LIBXSTREAM_OFFLOAD = false) : (update b fired slot w).1.m_pending = 0 :=
  update_fired b fired slot w (fun h => by rw [hoff] at h; cases h)

theorem spin_host (b : Build) (fired : Backend) (fuel : Nat) (slot : slot_type) (w : World)
    (hoff : b.LIBXSTREAM_OFFLOAD = false) :
    spin b fired (fuel + 1) slot w = some (update b fired slot w) := by
  simp [spin, update_host b fired slot w hoff]

theorem wait_loop_total_host (b : Build) (fired : Backend) (mt : Match) (context fuel : Nat)
    (slots : Nat → slot_type) (w : World) (hoff : b.LIBXSTREAM_OFFLOAD = false) :
    ∀ k, ∃ st, wait_loop b fired mt context (fuel + 1) slots w k = Except.ok st := by
  intro k
  induction k with
  | zero => exact ⟨_, rfl⟩
  | succ k ih =>
    obtain ⟨st, hst⟩ := ih
    simp only [wait_loop, hst]
    by_cases hc : wait_cond mt context k st
    · cases ho : b.LIBXSTREAM_WAIT_OCCURRED with
      | true =>
        exact ⟨⟨set_slot st.slots k (update b fired (st.slots k) st.world).1,
          (update b fired (st.slots k) st.world).2, st.completed + 1⟩,
          by simp [wait_body, hc, ho, spin_host b fired fuel _ _ hoff]⟩
      | false => exact ⟨_, wait_body_block b fired mt context (fuel + 1) k st hc ho⟩
    · exact ⟨st, wait_body_skip b fired mt context (fuel + 1) k st hc⟩

/-- C16: in a build without `LIBXSTREAM_OFFLOAD`, `query` returns true for every event, world
and context, and afterwards every matching active slot has the captured signal 0; the spin loop
of `wait` ends after its first `update`, which retires the slot, so that `wait` returns with
fuel for a single round of each spin loop. -/
theorem C16_host_only (b : Build) (fired : Backend) (mt : Match) (ev : libxstream_event)
    (w : World) (context : Nat) (hoff : b.LIBXSTREAM_OFFLOAD = false) :
    (libxstream_event.query b fired mt ev w context).1 = true ∧
    (∀ i, i < ev.m_expected →
      mt context ((libxstream_event.query b fired mt ev w context).2.1.m_slots i).m_stream
        = true →
      ((libxstream_event.query b fired mt ev w context).2.1.m_slots i).m_pending = 0) ∧
    (∀ fuel slot w1, spin b fired (fuel + 1) slot w1 = some (update b fired slot w1) ∧
      (update b fired slot w1).1.m_pending = 0) ∧
    (∃ r, libxstream_event.wait b fired mt 1 ev w context = Except.ok r) := by
  have key : ∀ j, j < ev.m_expected → mt context (ev.m_slots j).m_stream = true →
      ((query_loop b fired mt context ev.m_slots w ev.m_expected).slots j).m_pending = 0 := by
    intro j hj hm
    rw [query_loop_slot_final b fired mt context ev.m_slots w _ j hj]
    split_ifs with hv
    · exact update_host b fired _ _ hoff
    · by_contra hp
      exact hv ⟨hm, hp⟩
  refine ⟨?_, ?_, fun fuel slot w1 => ⟨spin_host b fired fuel slot w1 hoff,
    update_host b fired slot w1 hoff⟩, ?_⟩
  · simp only [libxstream_event.query]
    rw [query_loop_result]
    exact key
  · intro i hi hm
    simp only [libxstream_event.query] at hm ⊢
    rw [query_loop_stream] at hm
    exact key i hi hm
  · obtain ⟨st, hst⟩ := wait_loop_total_host b fired mt context 0 ev.m_slots w hoff ev.m_expected
    exact ⟨_, wait_of_loop b fired mt 1 ev w context st hst⟩

/-- C16 on two pending slots of a busy stream in a host-only spin build. -/
theorem C16_host_only_witness :
    build_spin.LIBXSTREAM_OFFLOAD = false ∧
    (libxstream_event.query build_spin backend_never match_stream event_twice world_device 0).1
      = true ∧
    ∃ r, libxstream_event.wait build_spin backend_never match_stream 1 event_twice
      world_device 0 = Except.ok r :=
  ⟨rfl, (C16_host_only build_spin backend_never match_stream event_twice world_device 0 rfl).1,
    (C16_host_only build_spin backend_never match_stream event_twice world_device 0 rfl).2.2.2⟩

/-! ## Scenarios of query -/

/-- A `query` on an event with a single active slot that matches and is pending. -/
theorem query_single (b : Build) (fired : Backend) (mt : Match) (ev : libxstream_event)
    (w : World) (context : Nat) (h1 : ev.m_expected = 1)
    (hm : mt context (ev.m_slots 0).m_stream = true) (hp : (ev.m_slots 0).m_pending ≠ 0) :
    libxstream_event.query b fired mt ev w context =
      (decide ((update b fired (ev.m_slots 0) w).1.m_pending = 0),
        ⟨set_slot ev.m_slots 0 (update b fired (ev.m_slots 0) w).1, 1⟩,
        (update b fired (ev.m_slots 0) w).2) := by
  simp [libxstream_event.query, h1, query_loop, query_body, hm, hp]

theorem query_single_not_signaled (b : Build) (fired : Backend) (mt : Match)
    (ev : libxstream_event) (w : World) (context : Nat) (h1 : ev.m_expected = 1)
    (hm : mt context (ev.m_slots 0).m_stream = true) (hp : (ev.m_slots 0).m_pending ≠ 0)
    (hw : (w.streams (ev.m_slots 0).m_stream).pending ≠ 0)
    (hf : signaled b fired w.polls (w.streams (ev.m_slots 0).m_stream).device
      (tested b (ev.m_slots 0) w) = false) :
    libxstream_event.query b fired mt ev w context =
      (false, ev, ⟨w.streams, w.polls + 1, w.waits⟩) := by
  rw [query_single b fired mt ev w context h1 hm hp,
    update_not_signaled b fired _ w hp hw hf, set_slot_self]
  cases ev
  simp only [] at h1
  subst h1
  simp [hp]

theorem query_single_signaled (b : Build) (fired : Backend) (mt : Match)
    (ev : libxstream_event) (w : World) (context : Nat) (h1 : ev.m_expected = 1)
    (hm : mt context (ev.m_slots 0).m_stream = true) (hp : (ev.m_slots 0).m_pending ≠ 0)
    (hw : (w.streams (ev.m_slots 0).m_stream).pending ≠ 0)
    (hf : signaled b fired w.polls (w.streams (ev.m_slots 0).m_stream).device
      (tested b (ev.m_slots 0) w) = true) :
    (libxstream_event.query b fired mt ev w context).1 = true := by
  rw [query_single b fired mt ev w context h1 hm hp]
  simp [(update_signaled b fired _ w hp hw hf).1]

/-- While the backend reports the tested signal of the single slot as not fired, repeated
`query` calls leave the event and the streams as they are. -/
theorem query_repeat_not_signaled (b : Build) (fired : Backend) (mt : Match)
    (ev : libxstream_event) (w : World) (context : Nat) (n : Nat) (h1 : ev.m_expected = 1)
    (hm : mt context (ev.m_slots 0).m_stream = true) (hp : (ev.m_slots 0).m_pending ≠ 0)
    (hw : (w.streams (ev.m_slots 0).m_stream).pending ≠ 0)
    (hnot : ∀ k, k < n → signaled b fired (w.polls + k)
      (w.streams (ev.m_slots 0).m_stream).device (tested b (ev.m_slots 0) w) = false) :
    ∀ k, k ≤ n → query_repeat b fired mt context k ev w =
      (ev, ⟨w.streams, w.polls + k, w.waits⟩) := by
  intro k
  induction k with
  | zero => intro _; rfl
  | succ k ih =>
    intro hk
    simp only [query_repeat]
    rw [ih (by omega)]
    simp only []
    rw [query_single_not_signaled b fired mt ev ⟨w.streams, w.polls + k, w.waits⟩ context h1 hm
      hp hw (hnot k (by omega))]
    rfl

/-- C11: on an event whose single active slot matches the context and is pending on a pending
stream, `query` returns false and leaves the event, the streams and the waits as they are as
long as the backend reports the tested signal as not fired, and the first `query` at which the
backend reports it as fired returns true. -/
theorem C11_scenario_a (b : Build) (fired : Backend) (mt : Match) (ev : libxstream_event)
    (w : World) (context : Nat) (n : Nat) (h1 : ev.m_expected = 1)
    (hm : mt context (ev.m_slots 0).m_stream = true) (hp : (ev.m_slots 0).m_pending ≠ 0)
    (hw : (w.streams (ev.m_slots 0).m_stream).pending ≠ 0)
    (hnot : ∀ k, k < n → signaled b fired (w.polls + k)
      (w.streams (ev.m_slots 0).m_stream).device (tested b (ev.m_slots 0) w) = false)
    (hyes : signaled b fired (w.polls + n)
      (w.streams (ev.m_slots 0).m_stream).device (tested b (ev.m_slots 0) w) = true) :
    (∀ k, k ≤ n → query_repeat b fired mt context k ev w =
      (ev, ⟨w.streams, w.polls + k, w.waits⟩)) ∧
    (∀ k, k < n →
      (libxstream_event.query b fired mt (query_repeat b fired mt context k ev w).1
        (query_repeat b fired mt context k ev w).2 context).1 = false) ∧
    (libxstream_event.query b fired mt (query_repeat b fired mt context n ev w).1
      (query_repeat b fired mt context n ev w).2 context).1 = true := by
  have hrep := query_repeat_not_signaled b fired mt ev w context n h1 hm hp hw hnot
  refine ⟨hrep, ?_, ?_⟩
  · intro k hk
    rw [hrep k (by omega)]
    simp only []
    rw [query_single_not_signaled b fired mt ev ⟨w.streams, w.polls + k, w.waits⟩ context h1 hm
      hp hw (hnot k hk)]
  · rw [hrep n (le_refl _)]
    exact query_single_signaled b fired mt ev ⟨w.streams, w.polls + n, w.waits⟩ context h1 hm
      hp hw hyes

/-- C11 with the answers not fired, then fired: the first `query` returns false, the second
true. -/
theorem C11_scenario_a_witness :
    signaled build_offload backend_second (world_device.polls + 0)
      (world_device.streams (event_single.m_slots 0).m_stream).device
      (tested build_offload (event_single.m_slots 0) world_device) = false ∧
    signaled build_offload backend_second (world_device.polls + 1)
      (world_device.streams (event_single.m_slots 0).m_stream).device
      (tested build_offload (event_single.m_slots 0) world_device) = true ∧
    (libxstream_event.query build_offload backend_second match_stream event_single
      world_device 0).1 = false ∧
    (libxstream_event.query build_offload backend_second match_stream
      (query_repeat build_offload backend_second match_stream 0 1 event_single world_device).1
      (query_repeat build_offload backend_second match_stream 0 1 event_single world_device).2
      0).1 = true :=
  ⟨rfl, rfl,
    (C11_scenario_a build_offload backend_second match_stream event_single world_device 0 1 rfl
      rfl (by decide) (by decide)
      (fun k hk => by
        have : k = 0 := by omega
        subst this
        rfl) rfl).2.1 0 (by decide),
    (C11_scenario_a build_offload backend_second match_stream event_single world_device 0 1 rfl
      rfl (by decide) (by decide)
      (fun k hk => by
        have : k = 0 := by omega
        subst this
        rfl) rfl).2.2⟩

/-- C12: under the wait-current policy, on an event with two active matching slots on one stream
that captured `S1` and `S2` with `0 < S1 < S2`, the signal of the stream being `S2`, `query`
returns what the backend reports for `S2` at its first poll: false when it reports not fired,
whatever it reports for `S1`, and true when it reports fired. -/
theorem C12_scenario_b (b : Build) (fired : Backend) (mt : Match) (ev : libxstream_event)
    (w : World) (context s : Nat) (S1 S2 : Nat)
    (hcur : b.LIBXSTREAM_WAIT_PAST = false) (h2 : ev.m_expected = 2)
    (h0 : ev.m_slots 0 = ⟨s, S1⟩) (h1 : ev.m_slots 1 = ⟨s, S2⟩)
    (hS1 : 0 < S1) (hS : S1 < S2) (hw : (w.streams s).pending = S2)
    (hm : mt context s = true) :
    (libxstream_event.query b fired mt ev w context).1 =
      signaled b fired w.polls (w.streams s).device S2 ∧
    (∀ fired2 : Backend, (∀ t d, fired2 t d S2 = fired t d S2) →
      (libxstream_event.query b fired2 mt ev w context).1 =
        (libxstream_event.query b fired mt ev w context).1) := by
  have main : ∀ fd : Backend, (libxstream_event.query b fd mt ev w context).1 =
      signaled b fd w.polls (w.streams s).device S2 := by
    intro fd
    have hp0 : (ev.m_slots 0).m_pending ≠ 0 := by rw [h0]; show S1 ≠ 0; omega
    have hp1 : (ev.m_slots 1).m_pending ≠ 0 := by rw [h1]; show S2 ≠ 0; omega
    have hw0 : (w.streams (ev.m_slots 0).m_stream).pending ≠ 0 := by
      have hS2 : S2 ≠ 0 := by omega
      rw [h0]; show (w.streams s).pending ≠ 0; rw [hw]; exact hS2
    have ht : tested b (ev.m_slots 0) w = S2 := by
      simp [tested, hcur, h0, hw]
    have hv0 : mt context (ev.m_slots 0).m_stream = true ∧ (ev.m_slots 0).m_pending ≠ 0 :=
      ⟨by rw [h0]; exact hm, hp0⟩
    have hv1 : mt context (ev.m_slots 1).m_stream = true ∧ (ev.m_slots 1).m_pending ≠ 0 :=
      ⟨by rw [h1]; exact hm, hp1⟩
    have hs0 : (ev.m_slots 0).m_stream = s := by rw [h0]
    have hs1 : (ev.m_slots 1).m_stream = s := by rw [h1]
    simp only [libxstream_event.query, h2]
    cases hf : signaled b fd w.polls (w.streams s).device S2 with
    | false =>
      have hf0 : signaled b fd w.polls (w.streams (ev.m_slots 0).m_stream).device
          (tested b (ev.m_slots 0) w) = false := by rw [ht, hs0]; exact hf
      rw [Bool.eq_false_iff]
      intro hres
      rw [query_loop_result] at hres
      have h := hres 0 (by omega) hv0.1
      rw [query_loop_slot_final b fd mt context ev.m_slots w 2 0 (by omega), if_pos hv0] at h
      simp only [query_loop] at h
      rw [update_not_signaled b fd _ w hp0 hw0 hf0] at h
      exact hp0 h
    | true =>
      have hf0 : signaled b fd w.polls (w.streams (ev.m_slots 0).m_stream).device
          (tested b (ev.m_slots 0) w) = true := by rw [ht, hs0]; exact hf
      obtain ⟨u1, -, u3, -⟩ := update_signaled b fd _ w hp0 hw0 hf0
      rw [query_loop_result]
      intro j hj hmj
      have hj2 : j = 0 ∨ j = 1 := by omega
      rcases hj2 with rfl | rfl
      · rw [query_loop_slot_final b fd mt context ev.m_slots w 2 0 (by omega), if_pos hv0]
        simp only [query_loop]
        rw [u1]
      · rw [query_loop_slot_final b fd mt context ev.m_slots w 2 1 (by omega), if_pos hv1]
        have hidle : ((query_loop b fd mt context ev.m_slots w 1).world.streams
            (ev.m_slots 1).m_stream).pending = 0 := by
          simp only [query_loop, query_body, if_pos hv0]
          rw [u3 (by rw [ht, hs0, hw]), hs1, hs0]
          exact set_pending_self _ _ _
        rw [update_idle b fd _ _ hp1 hidle]
  refine ⟨main fired, fun fired2 hsame => ?_⟩
  rw [main fired2, main fired]
  unfold signaled
  rw [hsame]

/-- C12 with `S1 = 5` and `S2 = 9`: the backend reports 5 as fired and 9 as not fired, and
`query` returns false. -/
theorem C12_scenario_b_witness :
    build_offload.LIBXSTREAM_WAIT_PAST = false ∧ (0 : Nat) < 5 ∧ (5 : Nat) < 9 ∧
    backend_five 0 0 5 = true ∧
    (libxstream_event.query build_offload backend_five match_stream event_twice
      world_device 0).1 = false :=
  ⟨rfl, by decide, by decide, rfl,
    (C12_scenario_b build_offload backend_five match_stream event_twice world_device 0 1 5 9
      rfl rfl rfl rfl (by decide) (by decide) rfl rfl).1⟩

/-! ## What a handled slot does to its stream -/

theorem tested_congr (b : Build) (slot : slot_type) (w w1 : World)
    (h : w1.streams = w.streams) : tested b slot w1 = tested b slot w := by
  simp only [tested, h]

/-- When the tested signal is the signal of the stream, the spin loop ends with the stream
idle. -/
theorem spin_clears (b : Build) (fired : Backend) :
    ∀ (fuel : Nat) (slot : slot_type) (w : World) (r : slot_type × World),
      slot.m_pending ≠ 0 → (w.streams slot.m_stream).pending ≠ 0 →
      tested b slot w = (w.streams slot.m_stream).pending →
      spin b fired fuel slot w = some r → (r.2.streams slot.m_stream).pending = 0 := by
  intro fuel
  induction fuel with
  | zero => intro slot w r _ _ _ h; simp [spin] at h
  | succ fuel ih =>
    intro slot w r hs hw ht h
    simp only [spin] at h
    split_ifs at h with hp
    · obtain ⟨-, h2, h3⟩ := update_left_pending b fired slot w hp
      have := ih (update b fired slot w).1 (update b fired slot w).2 r
        (by rw [h2]; exact hs) (by rw [h2, h3]; exact hw)
        (by rw [h2, tested_congr b slot w _ h3, h3]; exact ht) h
      rw [h2] at this
      exact this
    · simp only [Option.some.injEq] at h
      subst h
      cases hf : signaled b fired w.polls (w.streams slot.m_stream).device (tested b slot w) with
      | false =>
        rw [update_not_signaled b fired slot w hs hw hf] at hp
        exact absurd hs hp
      | true =>
        rw [(update_signaled b fired slot w hs hw hf).2.2.1 ht]
        exact set_pending_self _ _ _

/-- A round of `wait` that handles its slot and returns leaves the stream of the slot idle when
the tested signal is the signal of the stream. -/
theorem wait_body_clears_stream (b : Build) (fired : Backend) (mt : Match)
    (context fuel i : Nat) (st st1 : WaitState) (hc : wait_cond mt context i st)
    (ht : tested b (st.slots i) st.world = (st.world.streams (st.slots i).m_stream).pending)
    (h : wait_body b fired mt context fuel i st = Except.ok st1) :
    (st1.world.streams (st.slots i).m_stream).pending = 0 := by
  cases ho : b.LIBXSTREAM_WAIT_OCCURRED with
  | true =>
    unfold wait_body at h
    simp only [if_pos hc, ho, if_true] at h
    cases hs : spin b fired fuel (st.slots i) st.world with
    | none => rw [hs] at h; cases h
    | some r =>
      rw [hs] at h
      simp only [Except.ok.injEq] at h
      subst h
      exact spin_clears b fired fuel _ _ r hc.2.2 hc.2.1 ht hs
  | false =>
    rw [wait_body_block b fired mt context fuel i st hc ho] at h
    simp only [Except.ok.injEq] at h
    subst h
    unfold tested at ht
    simp only []
    rw [if_pos ht]
    exact set_pending_self _ _ _

theorem wait_body_streams_other (b : Build) (fired : Backend) (mt : Match)
    (context fuel i : Nat) (st st1 : WaitState)
    (h : wait_body b fired mt context fuel i st = Except.ok st1) (t : Nat)
    (ht : t ≠ (st.slots i).m_stream) : st1.world.streams t = st.world.streams t := by
  by_cases hc : wait_cond mt context i st
  · cases ho : b.LIBXSTREAM_WAIT_OCCURRED with
    | true =>
      unfold wait_body at h
      simp only [if_pos hc, ho, if_true] at h
      cases hs : spin b fired fuel (st.slots i) st.world with
      | none => rw [hs] at h; cases h
      | some r =>
        rw [hs] at h
        simp only [Except.ok.injEq] at h
        subst h
        exact (spin_some b fired fuel _ _ r hs).2.2.2.2.2.2 t ht
    | false =>
      rw [wait_body_block b fired mt context fuel i st hc ho] at h
      simp only [Except.ok.injEq] at h
      subst h
      simp only []
      split_ifs <;> first | rfl | exact set_pending_other _ _ _ _ ht
  · rw [wait_body_skip b fired mt context fuel i st hc] at h
    simp only [Except.ok.injEq] at h
    subst h
    rfl

/-- C18: take two active slots on different streams `A` (index 0) and `B` (index 1), both
pending with the signal their stream has. A `wait` in a context that matches `A` and not `B`
takes `expected` from 2 to 1 and leaves the slot and the stream of `B` as they are, pending; the
slot of `A`, done with, stays in the active part, and every `query` after it returns true,
whatever the backend reports on the signal of `B`. -/
theorem C18_narrow_filter (b : Build) (fired : Backend) (mt : Match) (fuel : Nat)
    (ev : libxstream_event) (w : World) (context A B : Nat) (a c : Nat)
    (r : libxstream_event × World)
    (h2 : ev.m_expected = 2) (h0 : ev.m_slots 0 = ⟨A, a⟩) (h1 : ev.m_slots 1 = ⟨B, c⟩)
    (hAB : A ≠ B) (ha : a ≠ 0) (hc : c ≠ 0)
    (hwA : (w.streams A).pending = a) (hwB : (w.streams B).pending = c)
    (hmA : mt context A = true) (hmB : mt context B = false)
    (hwait : libxstream_event.wait b fired mt fuel ev w context = Except.ok r) :
    r.1.m_expected = 1 ∧ r.1.m_slots 1 = ⟨B, c⟩ ∧ (r.1.m_slots 1).m_pending ≠ 0 ∧
    r.2.streams B = w.streams B ∧ (r.2.streams B).pending ≠ 0 ∧
    (r.1.m_slots 0).m_stream = A ∧
    (∀ (fired2 : Backend) (context2 : Nat),
      (libxstream_event.query b fired2 mt r.1 r.2 context2).1 = true) := by
  obtain ⟨st, hl, -, hr⟩ := wait_ok_inv b fired mt fuel ev w context r hwait
  subst hr
  rw [h2] at hl
  obtain ⟨st1, hl1, hb1⟩ := wait_loop_succ_ok b fired mt context fuel ev.m_slots w 1 st hl
  obtain ⟨st0, hl0, hb0⟩ := wait_loop_succ_ok b fired mt context fuel ev.m_slots w 0 st1 hl1
  simp only [wait_loop, Except.ok.injEq] at hl0
  subst hl0
  have hs0 : (ev.m_slots 0).m_stream = A := by rw [h0]
  have hp0 : (ev.m_slots 0).m_pending = a := by rw [h0]
  have hs1 : (ev.m_slots 1).m_stream = B := by rw [h1]
  have hcond : wait_cond mt context 0 ⟨ev.m_slots, w, 0⟩ := by
    refine ⟨?_, ?_, ?_⟩
    · show mt context (ev.m_slots 0).m_stream = true
      rw [hs0]; exact hmA
    · show (w.streams (ev.m_slots 0).m_stream).pending ≠ 0
      rw [hs0, hwA]; exact ha
    · show (ev.m_slots 0).m_pending ≠ 0
      rw [hp0]; exact ha
  have htest : tested b (ev.m_slots 0) w = (w.streams (ev.m_slots 0).m_stream).pending := by
    unfold tested
    split_ifs
    · rw [hp0, hs0, hwA]
    · rfl
  obtain ⟨c1, c2, -, c4, -⟩ := wait_body_ok b fired mt context fuel 0 _ st1 hb0
  have hclr := wait_body_clears_stream b fired mt context fuel 0 _ st1 hcond htest hb0
  have hoth := wait_body_streams_other b fired mt context fuel 0 _ st1 hb0 B
    (by show B ≠ (ev.m_slots 0).m_stream; rw [hs0]; exact fun h => hAB h.symm)
  simp only [] at c1 c2 c4 hclr hoth
  rw [if_pos hcond] at c4
  have hskip : ¬ wait_cond mt context 1 st1 := by
    intro h
    have := h.1
    rw [c2, hs1, hmB] at this
    cases this
  rw [wait_body_skip b fired mt context fuel 1 st1 hskip, Except.ok.injEq] at hb1
  subst hb1
  have hslot1 : st1.slots 1 = ⟨B, c⟩ := by rw [c1 1 (by omega), h1]
  refine ⟨by simp only [h2, c4], hslot1,
    by show (st1.slots 1).m_pending ≠ 0; rw [hslot1]; exact hc, hoth,
    by rw [hoth, hwB]; exact hc, by show (st1.slots 0).m_stream = A; rw [c2, hs0], ?_⟩
  intro fired2 context2
  simp only [libxstream_event.query, h2, c4]
  rw [query_loop_result]
  intro j hj hmj
  have hj0 : j = 0 := by omega
  subst hj0
  rw [query_loop_slot_final b fired2 mt context2 st1.slots st1.world _ 0 hj]
  split_ifs with hv
  · simp only [query_loop]
    rw [update_idle b fired2 _ _ hv.2 (by rw [c2]; exact hclr)]
  · by_contra hp
    exact hv ⟨hmj, hp⟩

/-- C18 on the streams 1 and 2 of `world_busy`, waited for in the context of stream 1, with a
backend that never reports a signal as fired. -/
theorem C18_narrow_filter_witness :
    match_stream 1 1 = true ∧ match_stream 1 2 = false ∧
    backend_never 0 (world_busy.streams 2).device 12 = false ∧
    ∃ r, libxstream_event.wait build_offload backend_never match_stream 0 event_two_streams
        world_busy 1 = Except.ok r ∧
      r.1.m_expected = 1 ∧ r.1.m_slots 1 = ⟨2, 12⟩ ∧
      (libxstream_event.query build_offload backend_never match_stream r.1 r.2 0).1 = true :=
  ⟨rfl, rfl, rfl, _, rfl,
    (C18_narrow_filter build_offload backend_never match_stream 0 event_two_streams world_busy
      1 1 2 11 12 _ rfl rfl rfl (by decide) (by decide) (by decide) rfl rfl rfl rfl rfl).1,
    rfl, rfl⟩

/-! ## Retired slots and the cycle of enqueue, query and wait -/

theorem wait_loop_ok_of_le (b : Build) (fired : Backend) (mt : Match) (context fuel : Nat)
    (slots : Nat → slot_type) (w : World) (i : Nat) :
    ∀ k, i ≤ k → ∀ st, wait_loop b fired mt context fuel slots w k = Except.ok st →
      ∃ st1, wait_loop b fired mt context fuel slots w i = Except.ok st1 := by
  intro k
  induction k with
  | zero =>
    intro hi st h
    have : i = 0 := by omega
    subst this
    exact ⟨st, h⟩
  | succ k ih =>
    intro hi st h
    by_cases hik : i = k + 1
    · subst hik; exact ⟨st, h⟩
    · obtain ⟨st0, h0, -⟩ := wait_loop_succ_ok b fired mt context fuel slots w k st h
      exact ih (by omega) st0 h0

/-- A stream that is idle after `i` rounds of `wait` is idle after every later round. -/
theorem wait_loop_idle_stays (b : Build) (fired : Backend) (mt : Match) (context fuel : Nat)
    (slots : Nat → slot_type) (w : World) (s i : Nat) (sti : WaitState)
    (hi : wait_loop b fired mt context fuel slots w i = Except.ok sti)
    (hz : (sti.world.streams s).pending = 0) :
    ∀ k, i ≤ k → ∀ st, wait_loop b fired mt context fuel slots w k = Except.ok st →
      (st.world.streams s).pending = 0 := by
  intro k
  induction k with
  | zero =>
    intro hik st h
    have : i = 0 := by omega
    subst this
    rw [hi] at h
    simp only [Except.ok.injEq] at h
    subst h
    exact hz
  | succ k ih =>
    intro hik st h
    by_cases hk : i = k + 1
    · subst hk
      rw [hi] at h
      simp only [Except.ok.injEq] at h
      subst h
      exact hz
    · obtain ⟨st0, h0, hb⟩ := wait_loop_succ_ok b fired mt context fuel slots w k st h
      have hz0 := ih (by omega) st0 h0
      obtain ⟨-, -, -, -, -, c6, -⟩ := wait_body_ok b fired mt context fuel k st0 st hb
      rcases c6 s with e | e
      · exact e
      · rw [e]; exact hz0

/-- Under the wait-current policy, of two slots on one stream `wait` handles at most the
first. -/
theorem wait_handles_once (b : Build) (fired : Backend) (mt : Match) (context fuel : Nat)
    (slots : Nat → slot_type) (w : World) (hcur : b.LIBXSTREAM_WAIT_PAST = false) (i j : Nat)
    (hij : i < j) (hs : (slots i).m_stream = (slots j).m_stream)
    (hi : wait_handles b fired mt context fuel slots w i = true) :
    wait_handles b fired mt context fuel slots w j = false := by
  unfold wait_handles at hi ⊢
  cases hli : wait_loop b fired mt context fuel slots w i with
  | error f => rw [hli] at hi; cases hi
  | ok sti =>
    rw [hli] at hi
    simp only [decide_eq_true_eq] at hi
    cases hlj : wait_loop b fired mt context fuel slots w j with
    | error f => rfl
    | ok stj =>
      simp only [decide_eq_false_iff_not]
      intro hc
      obtain ⟨st1, hl1⟩ := wait_loop_ok_of_le b fired mt context fuel slots w (i + 1) j
        (by omega) stj hlj
      obtain ⟨st0, hl0, hb⟩ := wait_loop_succ_ok b fired mt context fuel slots w i st1 hl1
      rw [hli] at hl0
      simp only [Except.ok.injEq] at hl0
      subst hl0
      have hclr := wait_body_clears_stream b fired mt context fuel i sti st1 hi
        (by simp [tested, hcur]) hb
      have hAi := (wait_loop_settled b fired mt context fuel slots w i sti hli).1 i
      have hAj := (wait_loop_settled b fired mt context fuel slots w j stj hlj).1 j
      rw [hAi] at hclr
      have hz := wait_loop_idle_stays b fired mt context fuel slots w (slots i).m_stream
        (i + 1) st1 hl1 hclr j (by omega) stj hlj
      have := hc.2.1
      rw [hAj, ← hs] at this
      exact this hz

/-- C20: under the wait-current policy, of two slots on one stream a single `wait` counts at most
the first as completed; so after two `enqueue(stream, false)` calls on a fresh event, on a stream
that is busy at both calls and at the `wait`, a `wait` that matches the stream and returns
leaves `expected = 1`. -/
theorem C20_one_slot_per_stream (b : Build) (fired : Backend) (mt : Match)
    (context fuel : Nat) (hcur : b.LIBXSTREAM_WAIT_PAST = false) :
    (∀ (slots : Nat → slot_type) (w : World) (i j : Nat), i < j →
      (slots i).m_stream = (slots j).m_stream →
      wait_handles b fired mt context fuel slots w i = true →
      wait_handles b fired mt context fuel slots w j = false) ∧
    (∀ (slots : Nat → slot_type) (w1 w2 w3 : World) (s : Nat) (ev : libxstream_event)
      (r : libxstream_event × World),
      (w1.streams s).pending ≠ 0 → (w2.streams s).pending ≠ 0 → (w3.streams s).pending ≠ 0 →
      mt context s = true →
      enqueue_seq b [(w1, s), (w2, s)] (libxstream_event.create slots) = Except.ok ev →
      libxstream_event.wait b fired mt fuel ev w3 context = Except.ok r →
      ev.m_expected = 2 ∧ r.1.m_expected = 1) := by
  refine ⟨fun slots w i j hij hs hi =>
    wait_handles_once b fired mt context fuel slots w hcur i j hij hs hi, ?_⟩
  intro slots w1 w2 w3 s ev r h1 h2 h3 hm hseq hwait
  simp only [enqueue_seq] at hseq
  cases he1 : libxstream_event.enqueue b w1 (libxstream_event.create slots) s false with
  | error f => rw [he1] at hseq; cases hseq
  | ok e1 =>
    rw [he1] at hseq
    simp only [] at hseq
    cases he2 : libxstream_event.enqueue b w2 e1 s false with
    | error f => rw [he2] at hseq; cases hseq
    | ok e2 =>
      rw [he2] at hseq
      simp only [Except.ok.injEq] at hseq
      subst hseq
      obtain ⟨g1, -⟩ := enqueue_ok_append b w1 _ e1 s he1
      obtain ⟨g2, -⟩ := enqueue_ok_append b w2 e1 e2 s he2
      subst g1
      subst g2
      simp only [libxstream_event.create, Nat.zero_add] at hwait ⊢
      obtain ⟨st, hl, -, hr⟩ := wait_ok_inv b fired mt fuel _ w3 context r hwait
      subst hr
      have hcnt := wait_loop_completed b fired mt context fuel _ w3 _ st hl
      have hh0 : wait_handles b fired mt context fuel
          (set_slot (set_slot slots 0 (slot_type.of_stream w1 s)) 1 (slot_type.of_stream w2 s))
          w3 0 = true := by
        simp [wait_handles, wait_loop, wait_cond, set_slot, slot_type.of_stream, hm, h1, h3]
      have hh1 := wait_handles_once b fired mt context fuel
        (set_slot (set_slot slots 0 (slot_type.of_stream w1 s)) 1 (slot_type.of_stream w2 s))
        w3 hcur 0 1 (by omega) (by simp [set_slot, slot_type.of_stream]) hh0
      simp only [wait_completed, List.range_succ, List.range_zero, List.nil_append,
        List.countP_append, List.countP_cons, List.countP_nil, hh0, hh1] at hcnt
      refine ⟨trivial, ?_⟩
      simp only [hcnt]
      rfl

/-- C20 in the default build: two appends on the busy stream 1, then `wait` without context
filter; `expected` is 1. -/
theorem C20_one_slot_per_stream_witness :
    build_default.LIBXSTREAM_WAIT_PAST = false ∧
    ∃ ev r, enqueue_seq build_default [(world_busy, 1), (world_busy, 1)]
        (libxstream_event.create slots_empty) = Except.ok ev ∧
      libxstream_event.wait build_default backend_never match_stream 0 ev world_busy 0
        = Except.ok r ∧
      ev.m_expected = 2 ∧ r.1.m_expected = 1 :=
  ⟨rfl, _, _, rfl, rfl,
    (C20_one_slot_per_stream build_default backend_never match_stream 0 0 rfl).2 slots_empty
      world_busy world_busy world_busy 1 _ _ (by decide) (by decide) (by decide) rfl rfl rfl⟩

end Libxstream
